import Mathlib

set_option maxRecDepth 40000

/-!
Formal model of the mortgage-free-analysis calculation core.

The Python source (models.py, service.py) computes with IEEE floats; this
development embeds the same algorithms over exact rationals, the standard
idealisation for its closed-form financial arithmetic.  Python ints become
integers or naturals, raised validation errors become the error branch of
an Except value, and the while-loop of the amortization simulator becomes
a fuel-indexed recursion whose fuel exceeds the loop's own hard iteration
cap, so the fuel never runs out before the loop guard fails.
-/

/-- models.py, MortgageInputs: the immutable input record.  Floats are ℚ,
the Python int term is ℤ (it is range-checked by validation later). -/
structure MortgageInputs where
  property_value : ℚ
  loan_amount : ℚ
  annual_rate_percent : ℚ
  term_years : ℤ
  annual_insurance : ℚ
  annual_ground_rent : ℚ
  annual_overpayment : ℚ
deriving DecidableEq

/-- models.py, MortgageInputs.deposit. -/
def MortgageInputs.deposit (i : MortgageInputs) : ℚ :=
  max 0 (i.property_value - i.loan_amount)

/-- models.py, MortgageInputs.ltv_percent. -/
def MortgageInputs.ltv_percent (i : MortgageInputs) : ℚ :=
  if i.property_value ≤ 0 then 0 else i.loan_amount / i.property_value * 100

/-- models.py, ScenarioRange. -/
structure ScenarioRange where
  low_rate : ℚ
  high_rate : ℚ
  step : ℚ
deriving DecidableEq

/-- models.py, ensure_finite_non_negative.  A rational is always finite, so
only the negativity check of the source is representable; the non-finite
(NaN/inf) guard of the float original has no counterpart in ℚ. -/
def ensure_finite_non_negative (value : ℚ) (label : String) : Except String ℚ :=
  if value < 0 then Except.error (label ++ " cannot be negative.") else Except.ok value

/-- models.py, validate_inputs: field-by-field checks, then the term range,
rate cap and loan-to-value cap, finally the reconstructed record. -/
def validate_inputs (inputs : MortgageInputs) : Except String MortgageInputs :=
  (ensure_finite_non_negative inputs.property_value ("Property value")).bind fun property_value =>
  (ensure_finite_non_negative inputs.loan_amount ("Loan amount")).bind fun loan_amount =>
  (ensure_finite_non_negative inputs.annual_rate_percent ("Annual rate")).bind fun annual_rate_percent =>
  (ensure_finite_non_negative inputs.annual_insurance ("Annual insurance")).bind fun annual_insurance =>
  (ensure_finite_non_negative inputs.annual_ground_rent ("Annual recurring property fee")).bind fun annual_ground_rent =>
  (ensure_finite_non_negative inputs.annual_overpayment ("Annual overpayment")).bind fun annual_overpayment =>
  if inputs.term_years < 1 ∨ 50 < inputs.term_years then
    Except.error ("Term must be between 1 and 50 years.")
  else if 30 < annual_rate_percent then
    Except.error ("Annual rate appears unrealistic (>30%).")
  else if 0 < property_value ∧ property_value * (3 / 2) < loan_amount then
    Except.error ("Loan amount is too high relative to property value. Check your numbers.")
  else
    Except.ok
      { property_value := property_value
        loan_amount := loan_amount
        annual_rate_percent := annual_rate_percent
        term_years := inputs.term_years
        annual_insurance := annual_insurance
        annual_ground_rent := annual_ground_rent
        annual_overpayment := annual_overpayment }

/-- models.py, validate_scenario_range: non-negativity, positive step,
min/max normalisation, the 30% cap on the high rate and the 300-point
grid-size cap. -/
def validate_scenario_range (scenario : ScenarioRange) : Except String ScenarioRange :=
  (ensure_finite_non_negative scenario.low_rate ("Minimum scenario rate")).bind fun low_rate =>
  (ensure_finite_non_negative scenario.high_rate ("Maximum scenario rate")).bind fun high_rate =>
  (ensure_finite_non_negative scenario.step ("Scenario step")).bind fun step =>
  if step ≤ 0 then Except.error ("Scenario step must be greater than zero.")
  else
    let low := min low_rate high_rate
    let high := max low_rate high_rate
    if 30 < high then Except.error ("Scenario rates above 30% are not allowed.")
    else if 300 < (high - low) / step then
      Except.error ("Scenario grid is too large; reduce the range or increase step size.")
    else Except.ok { low_rate := low, high_rate := high, step := step }

/-- service.py, MortgageAnalysisService.monthly_payment: the fixed-rate
annuity formula with the zero-principal/zero-term and zero-rate special
cases.  The Python exponent n is a positive int in the branch where it is
used, hence the toNat. -/
def monthly_payment (principal : ℚ) (annual_rate_percent : ℚ) (term_years : ℤ) : ℚ :=
  let r := annual_rate_percent / 100 / 12
  let n : ℤ := term_years * 12
  if principal ≤ 0 ∨ n ≤ 0 then 0
  else if r = 0 then principal / (n : ℚ)
  else principal * (r * (1 + r) ^ n.toNat) / ((1 + r) ^ n.toNat - 1)

/-- service.py, one row of the amortization schedule (the dict appended to
rows each month). -/
structure ScheduleRow where
  month : ℕ
  year : ℕ
  starting_balance : ℚ
  payment : ℚ
  interest : ℚ
  principal : ℚ
  overpayment : ℚ
  ending_balance : ℚ
  cumulative_interest : ℚ
  cumulative_principal : ℚ
  cumulative_overpayment : ℚ
deriving DecidableEq

/-- service.py, amortization_schedule loop body: the month's principal
component (`min(balance, standard_monthly)` at zero rate, otherwise
`min(balance, max(0.0, standard_monthly - interest))` with
interest = balance * monthly_rate). -/
def principalComp (r M balance : ℚ) : ℚ :=
  if r = 0 then min balance M else min balance (max 0 (M - balance * r))

/-- service.py, amortization_schedule loop body: the post-payment balance
`balance_after_payment = max(0.0, balance - principal_component)`. -/
def payB (r M balance : ℚ) : ℚ :=
  max 0 (balance - principalComp r M balance)

/-- service.py, amortization_schedule loop body: the overpayment applied in
month m (`min(annual_overpayment, balance_after_payment)` when an
overpayment is configured, the month is a multiple of 12 and the
post-payment balance is positive, else 0). -/
def overpayAt (A : ℚ) (m : ℕ) (bap : ℚ) : ℚ :=
  if 0 < A ∧ m % 12 = 0 ∧ 0 < bap then min A bap else 0

/-- service.py, amortization_schedule loop body: the balance at the end of
month m (`balance_after_payment -= overpayment`). -/
def opB (A : ℚ) (m : ℕ) (x : ℚ) : ℚ :=
  x - overpayAt A m x

/-- service.py, amortization_schedule loop body: the ScheduleRow dict
emitted for the month following state (month, balance), with running
cumulative totals totI, totP, totO.  The Year field is ceil(month/12). -/
def rowOf (r M A : ℚ) (month : ℕ) (balance totI totP totO : ℚ) : ScheduleRow :=
  { month := month + 1
    year := (month + 1 + 11) / 12
    starting_balance := balance
    payment := principalComp r M balance + balance * r
    interest := balance * r
    principal := principalComp r M balance
    overpayment := overpayAt A (month + 1) (payB r M balance)
    ending_balance := opB A (month + 1) (payB r M balance)
    cumulative_interest := totI + balance * r
    cumulative_principal := totP + principalComp r M balance
    cumulative_overpayment := totO + overpayAt A (month + 1) (payB r M balance) }

/-- service.py, amortization_schedule while-loop:
`while balance > 1e-8 and month < max_months + 1200`, emitting one row per
month, with the secondary stalled-progress break
(`month > max_months + 600 and abs(principal) < 1e-9`) after the append.
The fuel argument only bounds the recursion; callers pass more fuel than
the loop's own `max_months + 1200` iteration cap, so it never expires
before the guard fails. -/
def amortSteps (r M A : ℚ) (maxM : ℕ) : ℕ → ℕ → ℚ → ℚ → ℚ → ℚ → List ScheduleRow
  | 0, _, _, _, _, _ => []
  | fuel + 1, month, balance, totI, totP, totO =>
    if (1 : ℚ) / 10 ^ 8 < balance ∧ month < maxM + 1200 then
      rowOf r M A month balance totI totP totO ::
        (if maxM + 600 < month + 1 ∧ |principalComp r M balance| < (1 : ℚ) / 10 ^ 9 then []
         else
           amortSteps r M A maxM fuel (month + 1) (opB A (month + 1) (payB r M balance))
             (totI + balance * r) (totP + principalComp r M balance)
             (totO + overpayAt A (month + 1) (payB r M balance)))
    else []

/-- service.py, amortization_schedule after validation: initialise
balance = loan_amount, monthly_rate, the standard payment from the full
nominal term, month = 0, all totals 0, then run the loop. -/
def schedule_rows (checked : MortgageInputs) : List ScheduleRow :=
  let monthly_rate := checked.annual_rate_percent / 100 / 12
  let standard_monthly :=
    monthly_payment checked.loan_amount checked.annual_rate_percent checked.term_years
  let max_months := (checked.term_years * 12).toNat
  amortSteps monthly_rate standard_monthly checked.annual_overpayment max_months
    (max_months + 1201) 0 checked.loan_amount 0 0 0

/-- service.py, MortgageAnalysisService.amortization_schedule: validate,
then simulate. -/
def amortization_schedule (inputs : MortgageInputs) : Except String (List ScheduleRow) :=
  (validate_inputs inputs).map schedule_rows

/-- service.py, the summary dict returned by summarize_schedule. -/
structure Summary where
  months : ℚ
  years : ℚ
  total_interest : ℚ
  total_paid_to_bank : ℚ
  total_overpayment : ℚ
  all_in_housing_cost : ℚ
deriving DecidableEq

/-- service.py, MortgageAnalysisService.summarize_schedule: the all-zero
summary on an empty schedule, otherwise column aggregates (months is the
maximum of the Month column). -/
def summarize_schedule (schedule : List ScheduleRow) (annual_costs : ℚ) : Summary :=
  if schedule.isEmpty then
    { months := 0, years := 0, total_interest := 0, total_paid_to_bank := 0
      total_overpayment := 0, all_in_housing_cost := 0 }
  else
    let months : ℚ := (((schedule.map fun row => row.month).foldr max 0 : ℕ) : ℚ)
    let total_interest := (schedule.map fun row => row.interest).sum
    let total_payment := (schedule.map fun row => row.payment).sum
    let total_overpayment := (schedule.map fun row => row.overpayment).sum
    let years := months / 12
    let recurring_costs := annual_costs * years
    { months := months
      years := years
      total_interest := total_interest
      total_paid_to_bank := total_payment + total_overpayment
      total_overpayment := total_overpayment
      all_in_housing_cost := total_payment + total_overpayment + recurring_costs }

/-- service.py, the dict returned by scenario_result. -/
structure ScenarioResult where
  rate : ℚ
  annual_overpayment : ℚ
  monthly_payment : ℚ
  years : ℚ
  months : ℚ
  interest : ℚ
  paid_to_bank : ℚ
  all_in : ℚ
  schedule : List ScheduleRow
deriving DecidableEq

/-- service.py, scenario_result: the derived MortgageInputs built from the
base inputs with the substituted rate and overpayment. -/
def derivedInputs (base_inputs : MortgageInputs) (rate : ℚ) (annual_overpayment : ℚ) :
    MortgageInputs :=
  { property_value := base_inputs.property_value
    loan_amount := base_inputs.loan_amount
    annual_rate_percent := rate
    term_years := base_inputs.term_years
    annual_insurance := base_inputs.annual_insurance
    annual_ground_rent := base_inputs.annual_ground_rent
    annual_overpayment := annual_overpayment }

/-- service.py, MortgageAnalysisService.scenario_result: build the derived
inputs with the substituted rate and overpayment, validate them, simulate
and summarise. -/
def scenario_result (base_inputs : MortgageInputs) (rate : ℚ) (annual_overpayment : ℚ) :
    Except String ScenarioResult :=
  (validate_inputs (derivedInputs base_inputs rate annual_overpayment)).bind fun scenario_inputs =>
  (amortization_schedule scenario_inputs).map fun schedule =>
    let summary :=
      summarize_schedule schedule
        (scenario_inputs.annual_insurance + scenario_inputs.annual_ground_rent)
    { rate := rate
      annual_overpayment := annual_overpayment
      monthly_payment :=
        monthly_payment scenario_inputs.loan_amount scenario_inputs.annual_rate_percent
          scenario_inputs.term_years
      years := summary.years
      months := summary.months
      interest := summary.total_interest
      paid_to_bank := summary.total_paid_to_bank
      all_in := summary.all_in_housing_cost
      schedule := schedule }

/-- Computable floor for ℚ (numerator Euclidean-divided by denominator);
bridged to Mathlib's floor by ratFloor_eq below. -/
def ratFloor (q : ℚ) : ℤ := q.num / q.den

/-- Computable ceiling for ℚ. -/
def ratCeil (q : ℚ) : ℤ := -ratFloor (-q)

/-- numpy round-half-to-even of q, as an integer. -/
def roundHalfEven (q : ℚ) : ℤ :=
  if q - (ratFloor q : ℚ) < 1 / 2 then ratFloor q
  else if 1 / 2 < q - (ratFloor q : ℚ) then ratFloor q + 1
  else if ratFloor q % 2 = 0 then ratFloor q else ratFloor q + 1

/-- service.py, np.round(·, 4): round half-to-even at 4 decimal places. -/
def round4 (q : ℚ) : ℚ := (roundHalfEven (q * 10 ^ 4) : ℚ) / 10 ^ 4

/-- np.arange(start, stop, step) for a positive step: the values
start + k·step for k below ceil((stop − start)/step). -/
def npArange (start stop step : ℚ) : List ℚ :=
  (List.range (ratCeil ((stop - start) / step)).toNat).map fun (k : ℕ) => start + (k : ℚ) * step

/-- service.py, the rate grid shared by scenario_analysis and
build_heatmap_data: np.round(np.arange(low, high + step/2, step), 4). -/
def rate_grid (rates : ScenarioRange) : List ℚ :=
  (npArange rates.low_rate (rates.high_rate + rates.step / 2) rates.step).map round4

/-- service.py, np.sort on the rounded rate grid. -/
def sortRats (l : List ℚ) : List ℚ := l.insertionSort (· ≤ ·)

/-- Sequential effectful map over a list: the Except image of the Python
for-loop that appends one row per element and aborts on the first raised
validation error. -/
def mapME {α β : Type} (f : α → Except String β) : List α → Except String (List β)
  | [] => Except.ok []
  | a :: as => (f a).bind fun b => (mapME f as).map fun bs => b :: bs

/-- service.py, one row of the scenario_analysis result table. -/
structure ScenarioRow where
  rate_percent : ℚ
  monthly_payment_before : ℚ
  years : ℚ
  months : ℚ
  total_interest : ℚ
  total_paid : ℚ
  all_in : ℚ
deriving DecidableEq

/-- service.py, MortgageAnalysisService.scenario_analysis: validate the
inputs and the range, build the sorted rounded rate grid, and run
scenario_result once per rate with the base overpayment. -/
def scenario_analysis (inputs : MortgageInputs) (scenario_range : ScenarioRange) :
    Except String (List ScenarioRow) :=
  (validate_inputs inputs).bind fun checked =>
  (validate_scenario_range scenario_range).bind fun rates =>
  mapME
    (fun rate =>
      (scenario_result checked rate checked.annual_overpayment).map fun result =>
        { rate_percent := rate
          monthly_payment_before := result.monthly_payment
          years := result.years
          months := result.months
          total_interest := result.interest
          total_paid := result.paid_to_bank
          all_in := result.all_in })
    (sortRats (rate_grid rates))

/-- service.py, one cell of the build_heatmap_data result. -/
structure HeatmapCell where
  rate_percent : ℚ
  annual_overpayment : ℚ
  years : ℚ
  total_interest : ℚ
deriving DecidableEq

/-- service.py, MortgageAnalysisService.build_heatmap_data: the unsorted
rounded rate grid crossed with every caller-supplied overpayment level,
rates outer, overpayment levels inner, in caller order. -/
def build_heatmap_data (inputs : MortgageInputs) (scenario_range : ScenarioRange)
    (annual_overpayment_options : List ℚ) : Except String (List HeatmapCell) :=
  (validate_inputs inputs).bind fun checked =>
  (validate_scenario_range scenario_range).bind fun rates =>
  (mapME
    (fun rate =>
      mapME
        (fun overpay =>
          (scenario_result checked rate overpay).map fun result =>
            { rate_percent := rate
              annual_overpayment := overpay
              years := result.years
              total_interest := result.interest })
        annual_overpayment_options)
    (rate_grid rates)).map List.flatten

/-- service.py, the flat dict returned by serialize_inputs: the validated
fields plus the derived deposit and loan-to-value percentage. -/
structure SerializedInputs where
  property_value : ℚ
  loan_amount : ℚ
  annual_rate_percent : ℚ
  term_years : ℤ
  annual_insurance : ℚ
  annual_ground_rent : ℚ
  annual_overpayment : ℚ
  deposit : ℚ
  ltv_percent : ℚ
deriving DecidableEq

/-- service.py, MortgageAnalysisService.serialize_inputs. -/
def serialize_inputs (inputs : MortgageInputs) : Except String SerializedInputs :=
  (validate_inputs inputs).map fun checked =>
    { property_value := checked.property_value
      loan_amount := checked.loan_amount
      annual_rate_percent := checked.annual_rate_percent
      term_years := checked.term_years
      annual_insurance := checked.annual_insurance
      annual_ground_rent := checked.annual_ground_rent
      annual_overpayment := checked.annual_overpayment
      deposit := checked.deposit
      ltv_percent := checked.ltv_percent }

/-- Spec-side predicate (section 7 of the spec): the conditions under which
validate_inputs accepts, written directly from the spec's list of
validation triggers, for comparison with the code's behaviour. -/
def validInputsP (i : MortgageInputs) : Prop :=
  0 ≤ i.property_value ∧ 0 ≤ i.loan_amount ∧ 0 ≤ i.annual_rate_percent ∧
    0 ≤ i.annual_insurance ∧ 0 ≤ i.annual_ground_rent ∧ 0 ≤ i.annual_overpayment ∧
    1 ≤ i.term_years ∧ i.term_years ≤ 50 ∧ i.annual_rate_percent ≤ 30 ∧
    (i.property_value ≤ 0 ∨ i.loan_amount ≤ i.property_value * (3 / 2))

instance (i : MortgageInputs) : Decidable (validInputsP i) :=
  inferInstanceAs (Decidable (_ ∧ _))

/-- Spec-side predicate: the conditions under which validate_scenario_range
accepts, written from the spec's list of validation triggers. -/
def validRangeP (s : ScenarioRange) : Prop :=
  0 ≤ s.low_rate ∧ 0 ≤ s.high_rate ∧ 0 < s.step ∧
    max s.low_rate s.high_rate ≤ 30 ∧
    (max s.low_rate s.high_rate - min s.low_rate s.high_rate) / s.step ≤ 300

instance (s : ScenarioRange) : Decidable (validRangeP s) :=
  inferInstanceAs (Decidable (_ ∧ _))

/-- The normalised range that a successful validate_scenario_range returns. -/
def normRange (s : ScenarioRange) : ScenarioRange :=
  { low_rate := min s.low_rate s.high_rate
    high_rate := max s.low_rate s.high_rate
    step := s.step }

/-- Whether an Except value is a success. -/
def isOkE {α : Type} (e : Except String α) : Bool :=
  match e with
  | .ok _ => true
  | .error _ => false

/-- The payload of a successful Except value, with a default. -/
def okD {α : Type} (e : Except String α) (d : α) : α :=
  match e with
  | .ok a => a
  | .error _ => d

/-- The ScenarioResult that scenario_result returns when the derived inputs
pass validation. -/
def scenario_result_value (base_inputs : MortgageInputs) (rate : ℚ)
    (annual_overpayment : ℚ) : ScenarioResult :=
  let scenario_inputs := derivedInputs base_inputs rate annual_overpayment
  let schedule := schedule_rows scenario_inputs
  let summary :=
    summarize_schedule schedule
      (scenario_inputs.annual_insurance + scenario_inputs.annual_ground_rent)
  { rate := rate
    annual_overpayment := annual_overpayment
    monthly_payment :=
      monthly_payment scenario_inputs.loan_amount scenario_inputs.annual_rate_percent
        scenario_inputs.term_years
    years := summary.years
    months := summary.months
    interest := summary.total_interest
    paid_to_bank := summary.total_paid_to_bank
    all_in := summary.all_in_housing_cost
    schedule := schedule }

/-- The ScenarioRow that scenario_analysis builds for one grid rate when
the derived inputs pass validation. -/
def scenarioRowOf (checked : MortgageInputs) (rate : ℚ) : ScenarioRow :=
  let result := scenario_result_value checked rate checked.annual_overpayment
  { rate_percent := rate
    monthly_payment_before := result.monthly_payment
    years := result.years
    months := result.months
    total_interest := result.interest
    total_paid := result.paid_to_bank
    all_in := result.all_in }

/-- The HeatmapCell that build_heatmap_data builds for one grid cell when
the derived inputs pass validation. -/
def heatmapCellOf (checked : MortgageInputs) (rate overpay : ℚ) : HeatmapCell :=
  let result := scenario_result_value checked rate overpay
  { rate_percent := rate
    annual_overpayment := overpay
    years := result.years
    total_interest := result.interest }

/-! ### Basic Except lemmas -/

lemma okBind {α β : Type} (a : α) (f : α → Except String β) :
    (Except.ok a : Except String α).bind f = f a := rfl

lemma errBind {α β : Type} (e : String) (f : α → Except String β) :
    (Except.error e : Except String α).bind f = Except.error e := rfl

lemma okMap {α β : Type} (a : α) (f : α → β) :
    (Except.ok a : Except String α).map f = Except.ok (f a) := rfl

lemma errMap {α β : Type} (e : String) (f : α → β) :
    (Except.error e : Except String α).map f = Except.error e := rfl

/-! ### Validation lemmas -/

lemma ensure_ok_of_nonneg (v : ℚ) (l : String) (h : 0 ≤ v) :
    ensure_finite_non_negative v l = Except.ok v := by
  unfold ensure_finite_non_negative
  rw [if_neg (not_lt.mpr h)]

lemma validate_inputs_of_valid {i : MortgageInputs} (h : validInputsP i) :
    validate_inputs i = Except.ok i := by
  obtain ⟨h1, h2, h3, h4, h5, h6, h7, h8, h9, h10⟩ := h
  unfold validate_inputs
  rw [ensure_ok_of_nonneg _ _ h1, okBind, ensure_ok_of_nonneg _ _ h2, okBind,
    ensure_ok_of_nonneg _ _ h3, okBind, ensure_ok_of_nonneg _ _ h4, okBind,
    ensure_ok_of_nonneg _ _ h5, okBind, ensure_ok_of_nonneg _ _ h6, okBind]
  rw [if_neg (by omega)]
  rw [if_neg (not_lt.mpr h9)]
  rw [if_neg (by rintro ⟨hp, hl⟩; rcases h10 with h | h <;> linarith)]

lemma validate_inputs_err {i : MortgageInputs} (h : ¬ validInputsP i) :
    ∃ e, validate_inputs i = Except.error e := by
  unfold validate_inputs
  by_cases h1 : i.property_value < 0
  · exact ⟨_, by unfold ensure_finite_non_negative; rw [if_pos h1, errBind]⟩
  rw [ensure_ok_of_nonneg _ _ (not_lt.mp h1), okBind]
  by_cases h2 : i.loan_amount < 0
  · exact ⟨_, by unfold ensure_finite_non_negative; rw [if_pos h2, errBind]⟩
  rw [ensure_ok_of_nonneg _ _ (not_lt.mp h2), okBind]
  by_cases h3 : i.annual_rate_percent < 0
  · exact ⟨_, by unfold ensure_finite_non_negative; rw [if_pos h3, errBind]⟩
  rw [ensure_ok_of_nonneg _ _ (not_lt.mp h3), okBind]
  by_cases h4 : i.annual_insurance < 0
  · exact ⟨_, by unfold ensure_finite_non_negative; rw [if_pos h4, errBind]⟩
  rw [ensure_ok_of_nonneg _ _ (not_lt.mp h4), okBind]
  by_cases h5 : i.annual_ground_rent < 0
  · exact ⟨_, by unfold ensure_finite_non_negative; rw [if_pos h5, errBind]⟩
  rw [ensure_ok_of_nonneg _ _ (not_lt.mp h5), okBind]
  by_cases h6 : i.annual_overpayment < 0
  · exact ⟨_, by unfold ensure_finite_non_negative; rw [if_pos h6, errBind]⟩
  rw [ensure_ok_of_nonneg _ _ (not_lt.mp h6), okBind]
  by_cases h7 : i.term_years < 1 ∨ 50 < i.term_years
  · exact ⟨_, by rw [if_pos h7]⟩
  rw [if_neg h7]
  by_cases h8 : 30 < i.annual_rate_percent
  · exact ⟨_, by rw [if_pos h8]⟩
  rw [if_neg h8]
  by_cases h9 : 0 < i.property_value ∧ i.property_value * (3 / 2) < i.loan_amount
  · exact ⟨_, by rw [if_pos h9]⟩
  exact absurd ⟨not_lt.mp h1, not_lt.mp h2, not_lt.mp h3, not_lt.mp h4, not_lt.mp h5,
    not_lt.mp h6, by omega, by omega, not_lt.mp h8, by
      rcases le_or_lt i.property_value 0 with hp | hp
      · exact Or.inl hp
      · exact Or.inr (not_lt.mp fun hl => h9 ⟨hp, hl⟩)⟩ h

lemma validate_inputs_ok {i c : MortgageInputs} (h : validate_inputs i = Except.ok c) :
    validInputsP i ∧ c = i := by
  by_cases hv : validInputsP i
  · rw [validate_inputs_of_valid hv] at h
    injection h with h
    exact ⟨hv, h.symm⟩
  · obtain ⟨e, he⟩ := validate_inputs_err hv
    rw [he] at h
    exact absurd h (by simp)

lemma validate_inputs_isOk (i : MortgageInputs) :
    isOkE (validate_inputs i) = true ↔ validInputsP i := by
  constructor
  · intro h
    cases hv : validate_inputs i with
    | ok c => exact (validate_inputs_ok hv).1
    | error e => rw [hv] at h; exact absurd h (by simp [isOkE])
  · intro h
    rw [validate_inputs_of_valid h]
    rfl

lemma validate_range_of_valid {s : ScenarioRange} (h : validRangeP s) :
    validate_scenario_range s = Except.ok (normRange s) := by
  obtain ⟨h1, h2, h3, h4, h5⟩ := h
  unfold validate_scenario_range
  rw [ensure_ok_of_nonneg _ _ h1, okBind, ensure_ok_of_nonneg _ _ h2, okBind,
    ensure_ok_of_nonneg _ _ h3.le, okBind]
  rw [if_neg (not_le.mpr h3)]
  show (if 30 < max s.low_rate s.high_rate then _ else _) = _
  rw [if_neg (not_lt.mpr h4)]
  show (if 300 < _ then _ else _) = _
  rw [if_neg (not_lt.mpr h5)]
  rfl

lemma validate_range_err {s : ScenarioRange} (h : ¬ validRangeP s) :
    ∃ e, validate_scenario_range s = Except.error e := by
  unfold validate_scenario_range
  by_cases h1 : s.low_rate < 0
  · exact ⟨_, by unfold ensure_finite_non_negative; rw [if_pos h1, errBind]⟩
  rw [ensure_ok_of_nonneg _ _ (not_lt.mp h1), okBind]
  by_cases h2 : s.high_rate < 0
  · exact ⟨_, by unfold ensure_finite_non_negative; rw [if_pos h2, errBind]⟩
  rw [ensure_ok_of_nonneg _ _ (not_lt.mp h2), okBind]
  by_cases h3 : s.step < 0
  · exact ⟨_, by unfold ensure_finite_non_negative; rw [if_pos h3, errBind]⟩
  rw [ensure_ok_of_nonneg _ _ (not_lt.mp h3), okBind]
  by_cases h4 : s.step ≤ 0
  · exact ⟨_, by rw [if_pos h4]⟩
  rw [if_neg h4]
  by_cases h5 : 30 < max s.low_rate s.high_rate
  · exact ⟨_, by rw [if_pos h5]⟩
  show ∃ e, (if 30 < max s.low_rate s.high_rate then _ else _) = Except.error e
  rw [if_neg h5]
  by_cases h6 : 300 < (max s.low_rate s.high_rate - min s.low_rate s.high_rate) / s.step
  · exact ⟨_, by rw [if_pos h6]⟩
  rw [if_neg h6]
  exact absurd ⟨not_lt.mp h1, not_lt.mp h2, not_le.mp h4, not_lt.mp h5, not_lt.mp h6⟩ h

lemma validate_range_ok {s c : ScenarioRange} (h : validate_scenario_range s = Except.ok c) :
    validRangeP s ∧ c = normRange s := by
  by_cases hv : validRangeP s
  · rw [validate_range_of_valid hv] at h
    injection h with h
    exact ⟨hv, h.symm⟩
  · obtain ⟨e, he⟩ := validate_range_err hv
    rw [he] at h
    exact absurd h (by simp)

lemma validate_range_isOk (s : ScenarioRange) :
    isOkE (validate_scenario_range s) = true ↔ validRangeP s := by
  constructor
  · intro h
    cases hv : validate_scenario_range s with
    | ok c => exact (validate_range_ok hv).1
    | error e => rw [hv] at h; exact absurd h (by simp [isOkE])
  · intro h
    rw [validate_range_of_valid h]
    rfl

/-! ### Elementary facts about one loop iteration -/

lemma payB_nonneg (r M b : ℚ) : 0 ≤ payB r M b := le_max_left 0 _

lemma principalComp_nonneg {r M b : ℚ} (hM : 0 ≤ M) (hb : 0 ≤ b) :
    0 ≤ principalComp r M b := by
  unfold principalComp
  split_ifs
  · exact le_min hb hM
  · exact le_min hb (le_max_left 0 _)

lemma payB_le_self {r M b : ℚ} (hM : 0 ≤ M) (hb : 0 ≤ b) : payB r M b ≤ b := by
  unfold payB
  exact max_le hb (by linarith [principalComp_nonneg (r := r) hM hb])

lemma overpayAt_nonneg (A : ℚ) (m : ℕ) (x : ℚ) : 0 ≤ overpayAt A m x := by
  unfold overpayAt
  split_ifs with h
  · exact le_min h.1.le h.2.2.le
  · exact le_refl 0

lemma overpayAt_le (A : ℚ) (m : ℕ) {x : ℚ} (hx : 0 ≤ x) : overpayAt A m x ≤ x := by
  unfold overpayAt
  split_ifs with h
  · exact min_le_right _ _
  · exact hx

lemma opB_nonneg (A : ℚ) (m : ℕ) {x : ℚ} (hx : 0 ≤ x) : 0 ≤ opB A m x := by
  unfold opB
  linarith [overpayAt_le A m hx]

lemma opB_le (A : ℚ) (m : ℕ) (x : ℚ) : opB A m x ≤ x := by
  unfold opB
  linarith [overpayAt_nonneg A m x]

/-! ### Row-level invariants of the simulator loop -/

lemma amortSteps_rows_overpay (r M A : ℚ) (maxM : ℕ) :
    ∀ fuel month balance totI totP totO,
      ∀ row ∈ amortSteps r M A maxM fuel month balance totI totP totO,
        0 ≤ row.ending_balance ∧
        (row.overpayment ≠ 0 →
          0 < A ∧ row.month % 12 = 0 ∧ 0 < row.ending_balance + row.overpayment ∧
            row.overpayment = min A (row.ending_balance + row.overpayment)) := by
  intro fuel
  induction fuel with
  | zero => intro month balance totI totP totO row hrow; exact absurd hrow (by simp [amortSteps])
  | succ fuel ih =>
    intro month balance totI totP totO row hrow
    rw [amortSteps] at hrow
    by_cases hg : (1 : ℚ) / 10 ^ 8 < balance ∧ month < maxM + 1200
    · rw [if_pos hg] at hrow
      rcases List.mem_cons.mp hrow with rfl | hrow
      · constructor
        · exact opB_nonneg A (month + 1) (payB_nonneg r M balance)
        · intro hne
          have hx : opB A (month + 1) (payB r M balance) + overpayAt A (month + 1) (payB r M balance)
              = payB r M balance := by unfold opB; ring
          show 0 < A ∧ (month + 1) % 12 = 0 ∧ _ ∧ _
          have hne' : overpayAt A (month + 1) (payB r M balance) ≠ 0 := hne
          unfold overpayAt at hne'
          by_cases ht : 0 < A ∧ (month + 1) % 12 = 0 ∧ 0 < payB r M balance
          · refine ⟨ht.1, ht.2.1, ?_, ?_⟩
            · show 0 < opB A (month + 1) (payB r M balance) + overpayAt A (month + 1) (payB r M balance)
              rw [hx]; exact ht.2.2
            · show overpayAt A (month + 1) (payB r M balance)
                = min A (opB A (month + 1) (payB r M balance) + overpayAt A (month + 1) (payB r M balance))
              rw [hx]
              unfold overpayAt
              rw [if_pos ht]
          · rw [if_neg ht] at hne'
            exact absurd rfl hne'
      · by_cases hb : maxM + 600 < month + 1 ∧ |principalComp r M balance| < (1 : ℚ) / 10 ^ 9
        · rw [if_pos hb] at hrow; exact absurd hrow (by simp)
        · rw [if_neg hb] at hrow
          exact ih _ _ _ _ _ row hrow
    · rw [if_neg hg] at hrow; exact absurd hrow (by simp)

lemma amortSteps_rows_chain (r M A : ℚ) (maxM : ℕ) (hM : 0 ≤ M) :
    ∀ fuel month balance totI totP totO, 0 ≤ balance →
      (∀ row ∈ amortSteps r M A maxM fuel month balance totI totP totO,
        0 ≤ row.ending_balance ∧ row.ending_balance ≤ row.starting_balance) ∧
      (∀ first, (amortSteps r M A maxM fuel month balance totI totP totO).head? = some first →
        first.month = month + 1 ∧ first.starting_balance = balance) ∧
      (∀ k, ∀ hk : k < (amortSteps r M A maxM fuel month balance totI totP totO).length,
        ((amortSteps r M A maxM fuel month balance totI totP totO).get ⟨k, hk⟩).month
          = month + k + 1) ∧
      (amortSteps r M A maxM fuel month balance totI totP totO).Chain'
        (fun a b => b.starting_balance = a.ending_balance ∧ b.month = a.month + 1 ∧
          b.ending_balance ≤ a.ending_balance) := by
  intro fuel
  induction fuel with
  | zero =>
    intro month balance totI totP totO hb
    refine ⟨?_, ?_, ?_, ?_⟩ <;> simp [amortSteps]
  | succ fuel ih =>
    intro month balance totI totP totO hb
    rw [amortSteps]
    by_cases hg : (1 : ℚ) / 10 ^ 8 < balance ∧ month < maxM + 1200
    · rw [if_pos hg]
      have hrow_end : 0 ≤ (rowOf r M A month balance totI totP totO).ending_balance :=
        opB_nonneg A (month + 1) (payB_nonneg r M balance)
      have hrow_le : (rowOf r M A month balance totI totP totO).ending_balance
          ≤ (rowOf r M A month balance totI totP totO).starting_balance := by
        show opB A (month + 1) (payB r M balance) ≤ balance
        exact le_trans (opB_le A (month + 1) (payB r M balance)) (payB_le_self hM hb)
      by_cases hbrk : maxM + 600 < month + 1 ∧ |principalComp r M balance| < (1 : ℚ) / 10 ^ 9
      · rw [if_pos hbrk]
        refine ⟨?_, ?_, ?_, ?_⟩
        · intro row hrow
          rcases List.mem_cons.mp hrow with rfl | hrow
          · exact ⟨hrow_end, hrow_le⟩
          · exact absurd hrow (by simp)
        · intro first hfirst
          rw [List.head?_cons] at hfirst
          injection hfirst with hfirst
          rw [← hfirst]
          exact ⟨rfl, rfl⟩
        · intro k hk
          have hk1 : k = 0 := by simpa using Nat.lt_one_iff.mp (by simpa using hk)
          subst hk1
          rfl
        · exact List.chain'_singleton _
      · rw [if_neg hbrk]
        obtain ⟨ih1, ih2, ih3, ih4⟩ :=
          ih (month + 1) (opB A (month + 1) (payB r M balance)) (totI + balance * r)
            (totP + principalComp r M balance)
            (totO + overpayAt A (month + 1) (payB r M balance))
            (opB_nonneg A (month + 1) (payB_nonneg r M balance))
        refine ⟨?_, ?_, ?_, ?_⟩
        · intro row hrow
          rcases List.mem_cons.mp hrow with rfl | hrow
          · exact ⟨hrow_end, hrow_le⟩
          · exact ih1 row hrow
        · intro first hfirst
          rw [List.head?_cons] at hfirst
          injection hfirst with hfirst
          rw [← hfirst]
          exact ⟨rfl, rfl⟩
        · intro k hk
          match k with
          | 0 => rfl
          | k + 1 =>
            have hk' : k < (amortSteps r M A maxM fuel (month + 1)
                (opB A (month + 1) (payB r M balance)) (totI + balance * r)
                (totP + principalComp r M balance)
                (totO + overpayAt A (month + 1) (payB r M balance))).length := by
              simpa using hk
            calc ((rowOf r M A month balance totI totP totO ::
                  amortSteps r M A maxM fuel (month + 1) (opB A (month + 1) (payB r M balance))
                    (totI + balance * r) (totP + principalComp r M balance)
                    (totO + overpayAt A (month + 1) (payB r M balance))).get
                    ⟨k + 1, hk⟩).month
                = ((amortSteps r M A maxM fuel (month + 1)
                    (opB A (month + 1) (payB r M balance)) (totI + balance * r)
                    (totP + principalComp r M balance)
                    (totO + overpayAt A (month + 1) (payB r M balance))).get ⟨k, hk'⟩).month := by
                  rfl
              _ = (month + 1) + k + 1 := ih3 k hk'
              _ = month + (k + 1) + 1 := by omega
        · refine List.chain'_cons'.mpr ⟨?_, ih4⟩
          intro b hbmem
          have hmem : b ∈ amortSteps r M A maxM fuel (month + 1)
              (opB A (month + 1) (payB r M balance)) (totI + balance * r)
              (totP + principalComp r M balance)
              (totO + overpayAt A (month + 1) (payB r M balance)) :=
            List.mem_of_mem_head? hbmem
          obtain ⟨hb1, hb2⟩ := ih2 b hbmem
          refine ⟨hb2, hb1, ?_⟩
          calc b.ending_balance ≤ b.starting_balance := (ih1 b hmem).2
            _ = (rowOf r M A month balance totI totP totO).ending_balance := hb2
    · rw [if_neg hg]
      refine ⟨?_, ?_, ?_, ?_⟩ <;> simp

/-! ### Termination of the simulator with exact arithmetic

The loop is compared against an ideal balance trajectory c : ℕ → ℚ; the
actual balance is dominated by max 0 (c month), c is positive only before
month n, and n is at most the loop's month cap, so the loop exits with a
balance below its epsilon no later than month n. -/

lemma amortSteps_terminates (r M A : ℚ) (maxM n : ℕ) (c : ℕ → ℚ)
    (hstep : ∀ k b, 0 ≤ b → b ≤ max 0 (c k) →
      payB r M b ≤ max 0 (c (k + 1)))
    (hpos : ∀ k, 0 < c k → k < n)
    (hnm : n ≤ maxM) :
    ∀ fuel month balance totI totP totO, 0 ≤ balance → balance ≤ max 0 (c month) →
      n + 1 ≤ fuel + month →
      (amortSteps r M A maxM fuel month balance totI totP totO).length ≤ n - month ∧
      (amortSteps r M A maxM fuel month balance totI totP totO = [] →
        balance ≤ 1 / 10 ^ 8) ∧
      (∀ last, (amortSteps r M A maxM fuel month balance totI totP totO).getLast? = some last →
        0 ≤ last.ending_balance ∧ last.ending_balance ≤ 1 / 10 ^ 8) := by
  intro fuel
  induction fuel with
  | zero =>
    intro month balance totI totP totO hb hbc hfm
    have hcm : ¬ 0 < c month := fun hc => by have := hpos month hc; omega
    have hbal : balance = 0 := le_antisymm (by rwa [max_eq_left (not_lt.mp hcm)] at hbc) hb
    refine ⟨by simp [amortSteps], fun _ => by rw [hbal]; norm_num, ?_⟩
    intro last hlast
    exact absurd hlast (by simp [amortSteps])
  | succ fuel ih =>
    intro month balance totI totP totO hb hbc hfm
    rw [amortSteps]
    by_cases hg : (1 : ℚ) / 10 ^ 8 < balance ∧ month < maxM + 1200
    · rw [if_pos hg]
      have hcm : 0 < c month := by
        by_contra hc
        rw [max_eq_left (not_lt.mp hc)] at hbc
        have : (0 : ℚ) < 1 / 10 ^ 8 := by norm_num
        linarith [hg.1]
      have hmn : month < n := hpos month hcm
      have hb2 : 0 ≤ opB A (month + 1) (payB r M balance) :=
        opB_nonneg A (month + 1) (payB_nonneg r M balance)
      have hb2c : opB A (month + 1) (payB r M balance) ≤ max 0 (c (month + 1)) :=
        le_trans (opB_le A (month + 1) (payB r M balance)) (hstep month balance hb hbc)
      have hnobrk : ¬ (maxM + 600 < month + 1 ∧ |principalComp r M balance| < (1 : ℚ) / 10 ^ 9) := by
        rintro ⟨hbig, -⟩
        omega
      rw [if_neg hnobrk]
      obtain ⟨ihlen, ihnil, ihlast⟩ :=
        ih (month + 1) (opB A (month + 1) (payB r M balance)) (totI + balance * r)
          (totP + principalComp r M balance)
          (totO + overpayAt A (month + 1) (payB r M balance)) hb2 hb2c (by omega)
      refine ⟨?_, ?_, ?_⟩
      · simpa using by omega
      · intro hnil
        exact absurd hnil (by simp)
      · intro last hlast
        cases htail : amortSteps r M A maxM fuel (month + 1)
            (opB A (month + 1) (payB r M balance)) (totI + balance * r)
            (totP + principalComp r M balance)
            (totO + overpayAt A (month + 1) (payB r M balance)) with
        | nil =>
          rw [htail, List.getLast?_singleton] at hlast
          injection hlast with hlast
          rw [← hlast]
          refine ⟨hb2, ?_⟩
          show opB A (month + 1) (payB r M balance) ≤ 1 / 10 ^ 8
          exact ihnil htail
        | cons x xs =>
          rw [htail] at hlast
          rw [List.getLast?_cons_cons] at hlast
          rw [← htail] at hlast
          exact ihlast last hlast
    · rw [if_neg hg]
      refine ⟨by simp, ?_, ?_⟩
      · intro _
        rcases not_and_or.mp hg with hsmall | hcap
        · exact not_lt.mp hsmall
        · have hnm' : n ≤ month := by omega
          have hcm : ¬ 0 < c month := fun hc => by have := hpos month hc; omega
          have hbal : balance = 0 :=
            le_antisymm (by rwa [max_eq_left (not_lt.mp hcm)] at hbc) hb
          rw [hbal]
          norm_num
      · intro last hlast
        exact absurd hlast (by simp)

/-- The ideal fixed-rate balance trajectory: starting from P, interest at
rate r per month, constant payment M. -/
def idealAnnuity (P r M : ℚ) (k : ℕ) : ℚ := (P - M / r) * (1 + r) ^ k + M / r

/-- The ideal zero-rate balance trajectory. -/
def idealLinear (P M : ℚ) (k : ℕ) : ℚ := P - (k : ℚ) * M

lemma monthly_payment_zero_rate {P : ℚ} {t : ℤ} (hP : 0 < P) (ht : 1 ≤ t) :
    monthly_payment P 0 t = P / ((t * 12 : ℤ) : ℚ) := by
  simp only [monthly_payment]
  rw [if_neg (by push_neg; exact ⟨hP, by omega⟩), if_pos (by norm_num)]

lemma monthly_payment_pos_rate {P rate : ℚ} {t : ℤ} (hP : 0 < P) (ht : 1 ≤ t) (hr : 0 < rate) :
    monthly_payment P rate t =
      P * (rate / 100 / 12 * (1 + rate / 100 / 12) ^ (t * 12).toNat) /
        ((1 + rate / 100 / 12) ^ (t * 12).toNat - 1) := by
  simp only [monthly_payment]
  rw [if_neg (by push_neg; exact ⟨hP, by omega⟩), if_neg (by positivity)]

lemma payB_zero_rate (M b : ℚ) : payB 0 M b = max 0 (b - M) := by
  unfold payB principalComp
  rw [if_pos rfl]
  rcases le_total b M with h | h
  · rw [min_eq_left h, sub_self]
    rw [max_eq_left (le_refl 0), max_eq_left (by linarith)]
  · rw [min_eq_right h]

lemma payB_pos_rate {r M b : ℚ} (hr : r ≠ 0) (hMb : b * r ≤ M) :
    payB r M b = max 0 (b * (1 + r) - M) := by
  unfold payB principalComp
  rw [if_neg hr]
  have h0 : max 0 (M - b * r) = M - b * r := max_eq_right (by linarith)
  rw [h0]
  rcases le_total b (M - b * r) with h | h
  · rw [min_eq_left h, sub_self, max_self, max_eq_left (by nlinarith)]
  · rw [min_eq_right h]
    congr 1
    ring

lemma idealLinear_facts (P M : ℚ) (nn : ℕ) (_hP : 0 < P) (hM : 0 < M)
    (hMn : (nn : ℚ) * M = P) :
    (∀ k b, 0 ≤ b → b ≤ max 0 (idealLinear P M k) →
      payB 0 M b ≤ max 0 (idealLinear P M (k + 1))) ∧
    (∀ k, 0 < idealLinear P M k → k < nn) ∧ idealLinear P M 0 = P := by
  refine ⟨?_, ?_, by simp [idealLinear]⟩
  · intro k b hb hbc
    rw [payB_zero_rate]
    rcases le_or_lt (idealLinear P M k) 0 with hck | hck
    · rw [max_eq_left hck] at hbc
      have hb0 : b = 0 := le_antisymm hbc hb
      rw [hb0]
      rw [max_eq_left (by linarith : (0 : ℚ) - M ≤ 0)]
      exact le_max_left 0 _
    · rw [max_eq_right hck.le] at hbc
      refine max_le (le_max_left 0 _) (le_max_of_le_right ?_)
      show b - M ≤ idealLinear P M (k + 1)
      unfold idealLinear at hbc ⊢
      push_cast
      linarith
  · intro k hk
    by_contra hc
    push_neg at hc
    unfold idealLinear at hk
    have hkn : (nn : ℚ) ≤ (k : ℚ) := by exact_mod_cast hc
    nlinarith [mul_le_mul_of_nonneg_right hkn hM.le]

lemma idealAnnuity_facts (P r : ℚ) (nn : ℕ) (hP : 0 < P) (hr : 0 < r) (hnn : 0 < nn) :
    (∀ k b, 0 ≤ b →
      b ≤ max 0 (idealAnnuity P r (P * (r * (1 + r) ^ nn) / ((1 + r) ^ nn - 1)) k) →
      payB r (P * (r * (1 + r) ^ nn) / ((1 + r) ^ nn - 1)) b ≤
        max 0 (idealAnnuity P r (P * (r * (1 + r) ^ nn) / ((1 + r) ^ nn - 1)) (k + 1))) ∧
    (∀ k, 0 < idealAnnuity P r (P * (r * (1 + r) ^ nn) / ((1 + r) ^ nn - 1)) k → k < nn) ∧
    idealAnnuity P r (P * (r * (1 + r) ^ nn) / ((1 + r) ^ nn - 1)) 0 = P := by
  have hq : (1 : ℚ) < 1 + r := by linarith
  have hq0 : (0 : ℚ) < 1 + r := by linarith
  have hqn : (1 : ℚ) < (1 + r) ^ nn := one_lt_pow₀ hq hnn.ne'
  have hD : (0 : ℚ) < (1 + r) ^ nn - 1 := by linarith
  set M := P * (r * (1 + r) ^ nn) / ((1 + r) ^ nn - 1) with hMdef
  have hM : 0 < M := by
    apply div_pos _ hD
    exact mul_pos hP (mul_pos hr (pow_pos hq0 nn))
  have hS : M / r = P * (1 + r) ^ nn / ((1 + r) ^ nn - 1) := by
    rw [hMdef]
    field_simp
    ring
  have hSP : P < M / r := by
    rw [hS, lt_div_iff₀ hD]
    nlinarith
  have hS0 : 0 < M / r := div_pos hM hr
  have hcS : ∀ k, idealAnnuity P r M k < M / r := by
    intro k
    unfold idealAnnuity
    nlinarith [pow_pos hq0 k]
  have hMr : M / r * r = M := div_mul_cancel₀ M hr.ne'
  have hcsucc : ∀ k, idealAnnuity P r M (k + 1) = idealAnnuity P r M k * (1 + r) - M := by
    intro k
    unfold idealAnnuity
    rw [pow_succ]
    nlinarith [hMr]
  have hcn : idealAnnuity P r M nn = 0 := by
    unfold idealAnnuity
    rw [hS]
    field_simp
    ring
  refine ⟨?_, ?_, by unfold idealAnnuity; rw [pow_zero]; ring⟩
  · intro k b hb hbc
    have hbS : b < M / r := lt_of_le_of_lt hbc (max_lt hS0 (hcS k))
    have hMb : b * r ≤ M := by
      rw [← hMr]
      exact mul_le_mul_of_nonneg_right hbS.le hr.le
    rw [payB_pos_rate hr.ne' hMb]
    rcases le_or_lt (idealAnnuity P r M k) 0 with hck | hck
    · rw [max_eq_left hck] at hbc
      have hb0 : b = 0 := le_antisymm hbc hb
      rw [hb0]
      rw [max_eq_left (by nlinarith : (0 : ℚ) * (1 + r) - M ≤ 0)]
      exact le_max_left 0 _
    · rw [max_eq_right hck.le] at hbc
      refine max_le (le_max_left 0 _) (le_max_of_le_right ?_)
      rw [hcsucc k]
      nlinarith
  · intro k hk
    by_contra hc
    push_neg at hc
    have hqkn : (1 + r) ^ nn ≤ (1 + r) ^ k := pow_le_pow_right₀ hq.le hc
    have hneg : P - M / r < 0 := by linarith
    have : idealAnnuity P r M k ≤ idealAnnuity P r M nn := by
      unfold idealAnnuity
      nlinarith
    rw [hcn] at this
    linarith

lemma amortization_schedule_of_valid {i : MortgageInputs} (hv : validInputsP i) :
    amortization_schedule i = Except.ok (schedule_rows i) := by
  unfold amortization_schedule
  rw [validate_inputs_of_valid hv]
  rfl

lemma amortization_schedule_ok {i : MortgageInputs} {rows : List ScheduleRow}
    (h : amortization_schedule i = Except.ok rows) :
    validInputsP i ∧ rows = schedule_rows i := by
  unfold amortization_schedule at h
  cases hval : validate_inputs i with
  | ok c =>
    obtain ⟨hv, hc⟩ := validate_inputs_ok hval
    rw [hval, okMap] at h
    injection h with h
    rw [← h, hc]
    exact ⟨hv, rfl⟩
  | error e =>
    rw [hval, errMap] at h
    exact absurd h (by simp)

lemma schedule_rows_terminates (i : MortgageInputs) (hv : validInputsP i)
    (hl : 1 / 10 ^ 8 < i.loan_amount) :
    (schedule_rows i).length ≤ (i.term_years * 12).toNat ∧
    (schedule_rows i = [] → i.loan_amount ≤ 1 / 10 ^ 8) ∧
    (∀ last, (schedule_rows i).getLast? = some last →
      0 ≤ last.ending_balance ∧ last.ending_balance ≤ 1 / 10 ^ 8) := by
  obtain ⟨h1, h2, h3, h4, h5, h6, h7, h8, h9, h10⟩ := hv
  have hP : 0 < i.loan_amount := lt_trans (by norm_num) hl
  set nn := (i.term_years * 12).toNat with hnn
  have hnpos : 0 < nn := by omega
  have hrw : schedule_rows i = amortSteps (i.annual_rate_percent / 100 / 12)
      (monthly_payment i.loan_amount i.annual_rate_percent i.term_years)
      i.annual_overpayment nn (nn + 1201) 0 i.loan_amount 0 0 0 := rfl
  rw [hrw]
  rcases eq_or_lt_of_le h3 with hr0 | hrpos
  · have hrr : i.annual_rate_percent / 100 / 12 = 0 := by rw [← hr0]; norm_num
    have hcast : ((nn : ℕ) : ℤ) = i.term_years * 12 := Int.toNat_of_nonneg (by omega)
    have hnQ : ((i.term_years * 12 : ℤ) : ℚ) = ((nn : ℕ) : ℚ) := by
      rw [← hcast]
      push_cast
      rfl
    have hM : monthly_payment i.loan_amount i.annual_rate_percent i.term_years
        = i.loan_amount / ((nn : ℕ) : ℚ) := by
      rw [← hr0, monthly_payment_zero_rate hP h7, hnQ]
    have hnnQ : (0 : ℚ) < ((nn : ℕ) : ℚ) := by exact_mod_cast hnpos
    have hMpos : 0 < i.loan_amount / ((nn : ℕ) : ℚ) := div_pos hP hnnQ
    have hMn : ((nn : ℕ) : ℚ) * (i.loan_amount / ((nn : ℕ) : ℚ)) = i.loan_amount := by
      rw [mul_comm, div_mul_cancel₀ _ hnnQ.ne']
    obtain ⟨hstep, hpos, hc0⟩ :=
      idealLinear_facts i.loan_amount (i.loan_amount / ((nn : ℕ) : ℚ)) nn hP hMpos hMn
    rw [hrr, hM]
    obtain ⟨hlen, hnil, hlast⟩ :=
      amortSteps_terminates 0 (i.loan_amount / ((nn : ℕ) : ℚ)) i.annual_overpayment nn nn
        (idealLinear i.loan_amount (i.loan_amount / ((nn : ℕ) : ℚ))) hstep hpos (le_refl nn)
        (nn + 1201) 0 i.loan_amount 0 0 0 hP.le
        (by rw [hc0]; exact le_max_right 0 _) (by omega)
    exact ⟨by simpa using hlen, hnil, hlast⟩
  · have hr' : 0 < i.annual_rate_percent / 100 / 12 := by positivity
    have hM := monthly_payment_pos_rate hP h7 hrpos
    rw [hM]
    obtain ⟨hstep, hpos, hc0⟩ :=
      idealAnnuity_facts i.loan_amount (i.annual_rate_percent / 100 / 12) nn hP hr' hnpos
    obtain ⟨hlen, hnil, hlast⟩ :=
      amortSteps_terminates (i.annual_rate_percent / 100 / 12)
        (i.loan_amount * (i.annual_rate_percent / 100 / 12 *
            (1 + i.annual_rate_percent / 100 / 12) ^ nn) /
          ((1 + i.annual_rate_percent / 100 / 12) ^ nn - 1))
        i.annual_overpayment nn nn
        (idealAnnuity i.loan_amount (i.annual_rate_percent / 100 / 12)
          (i.loan_amount * (i.annual_rate_percent / 100 / 12 *
              (1 + i.annual_rate_percent / 100 / 12) ^ nn) /
            ((1 + i.annual_rate_percent / 100 / 12) ^ nn - 1)))
        hstep hpos (le_refl nn)
        (nn + 1201) 0 i.loan_amount 0 0 0 hP.le
        (by rw [hc0]; exact le_max_right 0 _) (by omega)
    exact ⟨by simpa using hlen, hnil, hlast⟩

/-! ### Sweep lemmas -/

lemma isOkE_map {α β : Type} (e : Except String α) (f : α → β) :
    isOkE (e.map f) = isOkE e := by
  cases e <;> rfl

lemma mapME_ok_map {α β : Type} (f : α → Except String β) (g : α → β) :
    ∀ l : List α, (∀ a ∈ l, f a = Except.ok (g a)) → mapME f l = Except.ok (l.map g) := by
  intro l
  induction l with
  | nil => intro _; rfl
  | cons a as ih =>
    intro h
    show (f a).bind _ = _
    rw [h a (List.mem_cons_self a as), okBind,
      ih fun x hx => h x (List.mem_cons_of_mem _ hx), okMap]
    rfl

lemma mapME_isOk {α β : Type} (f : α → Except String β) :
    ∀ l : List α, isOkE (mapME f l) = true ↔ ∀ a ∈ l, isOkE (f a) = true := by
  intro l
  induction l with
  | nil => simp [mapME, isOkE]
  | cons a as ih =>
    constructor
    · intro h x hx
      cases hfa : f a with
      | error e =>
        rw [show mapME f (a :: as) = (f a).bind _ from rfl, hfa, errBind] at h
        exact absurd h (by simp [isOkE])
      | ok b =>
        rw [show mapME f (a :: as) = (f a).bind _ from rfl, hfa, okBind] at h
        rcases List.mem_cons.mp hx with rfl | hx
        · rw [hfa]; rfl
        · rw [isOkE_map] at h
          exact ih.mp h x hx
    · intro h
      cases hfa : f a with
      | error e =>
        have := h a (List.mem_cons_self a as)
        rw [hfa] at this
        exact absurd this (by simp [isOkE])
      | ok b =>
        rw [show mapME f (a :: as) = (f a).bind _ from rfl, hfa, okBind]
        rw [isOkE_map]
        exact ih.mpr fun x hx => h x (List.mem_cons_of_mem _ hx)

lemma scenario_result_of_valid {base : MortgageInputs} {rate op : ℚ}
    (hv : validInputsP (derivedInputs base rate op)) :
    scenario_result base rate op = Except.ok (scenario_result_value base rate op) := by
  unfold scenario_result
  rw [validate_inputs_of_valid hv, okBind, amortization_schedule_of_valid hv, okMap]
  rfl

lemma scenario_result_isOk (base : MortgageInputs) (rate op : ℚ) :
    isOkE (scenario_result base rate op) = true ↔ validInputsP (derivedInputs base rate op) := by
  constructor
  · intro h
    by_contra hv
    obtain ⟨e, he⟩ := validate_inputs_err hv
    unfold scenario_result at h
    rw [he, errBind] at h
    exact absurd h (by simp [isOkE])
  · intro hv
    rw [scenario_result_of_valid hv]
    rfl

lemma ratFloor_eq (q : ℚ) : ratFloor q = ⌊q⌋ := (Rat.floor_def).symm

lemma roundHalfEven_nonneg {q : ℚ} (h : 0 ≤ q) : 0 ≤ roundHalfEven q := by
  have hf : 0 ≤ ratFloor q := by
    rw [ratFloor_eq]
    exact Int.floor_nonneg.mpr h
  unfold roundHalfEven
  split_ifs <;> omega

lemma round4_nonneg {q : ℚ} (h : 0 ≤ q) : 0 ≤ round4 q := by
  unfold round4
  apply div_nonneg _ (by norm_num)
  exact_mod_cast roundHalfEven_nonneg (by positivity)

lemma rate_grid_nonneg {s : ScenarioRange} (hlow : 0 ≤ s.low_rate) (hstep : 0 ≤ s.step) :
    ∀ v ∈ rate_grid s, 0 ≤ v := by
  intro v hv
  unfold rate_grid npArange at hv
  rw [List.mem_map] at hv
  obtain ⟨x, hx, rfl⟩ := hv
  rw [List.mem_map] at hx
  obtain ⟨k, hk, rfl⟩ := hx
  exact round4_nonneg (add_nonneg hlow (mul_nonneg (Nat.cast_nonneg k) hstep))

lemma rate_grid_ne_nil {s : ScenarioRange} (hle : s.low_rate ≤ s.high_rate)
    (hstep : 0 < s.step) : rate_grid s ≠ [] := by
  have hpos : (0 : ℚ) < (s.high_rate + s.step / 2 - s.low_rate) / s.step := by
    apply div_pos _ hstep
    linarith
  have hceil : 0 < ratCeil ((s.high_rate + s.step / 2 - s.low_rate) / s.step) := by
    unfold ratCeil
    have hneg : ⌊-((s.high_rate + s.step / 2 - s.low_rate) / s.step)⌋ < 0 := by
      apply Int.floor_lt.mpr
      push_cast
      linarith
    rw [ratFloor_eq]
    omega
  intro hc
  have hlen := congrArg List.length hc
  unfold rate_grid npArange at hlen
  simp only [List.length_map, List.length_range, List.length_nil] at hlen
  exact absurd (Int.toNat_eq_zero.mp hlen) (not_le.mpr hceil)

lemma sortRats_perm (l : List ℚ) : List.Perm (sortRats l) l := List.perm_insertionSort _ l

lemma sortRats_sorted (l : List ℚ) : (sortRats l).Sorted (· ≤ ·) := List.sorted_insertionSort _ l

lemma derived_valid {i : MortgageInputs} {rate op : ℚ} (hv : validInputsP i)
    (hr0 : 0 ≤ rate) (hr30 : rate ≤ 30) (hop : 0 ≤ op) :
    validInputsP (derivedInputs i rate op) := by
  obtain ⟨h1, h2, h3, h4, h5, h6, h7, h8, h9, h10⟩ := hv
  exact ⟨h1, h2, hr0, h4, h5, hop, h7, h8, hr30, h10⟩

set_option maxHeartbeats 1000000 in
lemma scenario_analysis_of_valid {i : MortgageInputs} {s : ScenarioRange}
    (hv : validInputsP i) (hr : validRangeP s)
    (h30 : ∀ v ∈ rate_grid (normRange s), v ≤ 30) :
    scenario_analysis i s =
      Except.ok ((sortRats (rate_grid (normRange s))).map (scenarioRowOf i)) := by
  obtain ⟨hr1, hr2, hr3, hr4, hr5⟩ := hr
  have hop : 0 ≤ i.annual_overpayment := hv.2.2.2.2.2.1
  unfold scenario_analysis
  rw [validate_inputs_of_valid hv, okBind, validate_range_of_valid ⟨hr1, hr2, hr3, hr4, hr5⟩,
    okBind]
  apply mapME_ok_map
  intro rate hrate
  have hmem : rate ∈ rate_grid (normRange s) := (sortRats_perm _).mem_iff.mp hrate
  have hrate0 : 0 ≤ rate :=
    rate_grid_nonneg (s := normRange s) (by exact le_min hr1 hr2) (by exact hr3.le) rate hmem
  have hd : validInputsP (derivedInputs i rate i.annual_overpayment) :=
    derived_valid hv hrate0 (h30 rate hmem) hop
  rw [scenario_result_of_valid hd, okMap]
  rfl

set_option maxHeartbeats 1000000 in
lemma build_heatmap_of_valid {i : MortgageInputs} {s : ScenarioRange} {opts : List ℚ}
    (hv : validInputsP i) (hr : validRangeP s)
    (h30 : ∀ v ∈ rate_grid (normRange s), v ≤ 30) (hop : ∀ o ∈ opts, 0 ≤ o) :
    build_heatmap_data i s opts =
      Except.ok
        ((rate_grid (normRange s)).map fun rate => opts.map (heatmapCellOf i rate)).flatten := by
  obtain ⟨hr1, hr2, hr3, hr4, hr5⟩ := hr
  unfold build_heatmap_data
  rw [validate_inputs_of_valid hv, okBind, validate_range_of_valid ⟨hr1, hr2, hr3, hr4, hr5⟩,
    okBind]
  rw [mapME_ok_map _ (fun rate => opts.map (heatmapCellOf i rate)) _ ?_, okMap]
  intro rate hmem
  apply mapME_ok_map
  intro o ho
  have hrate0 : 0 ≤ rate :=
    rate_grid_nonneg (s := normRange s) (by exact le_min hr1 hr2) (by exact hr3.le) rate hmem
  have hd : validInputsP (derivedInputs i rate o) :=
    derived_valid hv hrate0 (h30 rate hmem) (hop o ho)
  rw [scenario_result_of_valid hd, okMap]
  rfl

lemma scenario_analysis_isOk (i : MortgageInputs) (s : ScenarioRange) :
    isOkE (scenario_analysis i s) = true ↔
      validInputsP i ∧ validRangeP s ∧ ∀ v ∈ rate_grid (normRange s), v ≤ 30 := by
  constructor
  · intro h
    have hv : validInputsP i := by
      by_contra hv
      obtain ⟨e, he⟩ := validate_inputs_err hv
      unfold scenario_analysis at h
      rw [he, errBind] at h
      exact absurd h (by simp [isOkE])
    have hr : validRangeP s := by
      by_contra hr
      obtain ⟨e, he⟩ := validate_range_err hr
      unfold scenario_analysis at h
      rw [validate_inputs_of_valid hv, okBind, he, errBind] at h
      exact absurd h (by simp [isOkE])
    refine ⟨hv, hr, ?_⟩
    intro v hvmem
    unfold scenario_analysis at h
    rw [validate_inputs_of_valid hv, okBind, validate_range_of_valid hr, okBind] at h
    have hall := (mapME_isOk _ _).mp h v ((sortRats_perm _).mem_iff.mpr hvmem)
    rw [isOkE_map] at hall
    have hd := (scenario_result_isOk i v i.annual_overpayment).mp hall
    exact hd.2.2.2.2.2.2.2.2.1
  · rintro ⟨hv, hr, h30⟩
    rw [scenario_analysis_of_valid hv hr h30]
    rfl

lemma build_heatmap_isOk (i : MortgageInputs) (s : ScenarioRange) (opts : List ℚ) :
    isOkE (build_heatmap_data i s opts) = true ↔
      validInputsP i ∧ validRangeP s ∧
        (opts = [] ∨
          ((∀ v ∈ rate_grid (normRange s), v ≤ 30) ∧ ∀ o ∈ opts, 0 ≤ o)) := by
  constructor
  · intro h
    have hv : validInputsP i := by
      by_contra hv
      obtain ⟨e, he⟩ := validate_inputs_err hv
      unfold build_heatmap_data at h
      rw [he, errBind] at h
      exact absurd h (by simp [isOkE])
    have hr : validRangeP s := by
      by_contra hr
      obtain ⟨e, he⟩ := validate_range_err hr
      unfold build_heatmap_data at h
      rw [validate_inputs_of_valid hv, okBind, he, errBind] at h
      exact absurd h (by simp [isOkE])
    refine ⟨hv, hr, ?_⟩
    by_cases hne : opts = []
    · exact Or.inl hne
    right
    unfold build_heatmap_data at h
    rw [validate_inputs_of_valid hv, okBind, validate_range_of_valid hr, okBind,
      isOkE_map] at h
    have hall := (mapME_isOk _ _).mp h
    have hcell : ∀ v ∈ rate_grid (normRange s), ∀ o ∈ opts,
        validInputsP (derivedInputs i v o) := by
      intro v hvmem o ho
      have hinner := hall v hvmem
      have hone := (mapME_isOk _ _).mp hinner o ho
      rw [isOkE_map] at hone
      exact (scenario_result_isOk i v o).mp hone
    obtain ⟨o0, ho0⟩ := List.exists_mem_of_ne_nil opts hne
    have hgridne := rate_grid_ne_nil (s := normRange s)
      (by exact min_le_max) (by exact hr.2.2.1)
    obtain ⟨v0, hv0⟩ := List.exists_mem_of_ne_nil _ hgridne
    constructor
    · intro v hvmem
      exact (hcell v hvmem o0 ho0).2.2.2.2.2.2.2.2.1
    · intro o ho
      exact (hcell v0 hv0 o ho).2.2.2.2.2.1
  · rintro ⟨hv, hr, hrest⟩
    rcases hrest with rfl | ⟨h30, hop⟩
    · unfold build_heatmap_data
      rw [validate_inputs_of_valid hv, okBind, validate_range_of_valid hr, okBind, isOkE_map]
      refine (mapME_isOk _ _).mpr ?_
      intro a _
      rfl
    · rw [build_heatmap_of_valid hv hr h30 hop]
      rfl

lemma serialize_inputs_isOk (i : MortgageInputs) :
    isOkE (serialize_inputs i) = true ↔ validInputsP i := by
  unfold serialize_inputs
  rw [isOkE_map]
  exact validate_inputs_isOk i

lemma amortization_schedule_isOk (i : MortgageInputs) :
    isOkE (amortization_schedule i) = true ↔ validInputsP i := by
  unfold amortization_schedule
  rw [isOkE_map]
  exact validate_inputs_isOk i

lemma schedule_rows_nil_iff (i : MortgageInputs) :
    schedule_rows i = [] ↔ i.loan_amount ≤ 1 / 10 ^ 8 := by
  have hrw : schedule_rows i = amortSteps (i.annual_rate_percent / 100 / 12)
      (monthly_payment i.loan_amount i.annual_rate_percent i.term_years)
      i.annual_overpayment ((i.term_years * 12).toNat)
      ((i.term_years * 12).toNat + 1201) 0 i.loan_amount 0 0 0 := rfl
  rw [hrw, show (i.term_years * 12).toNat + 1201 = ((i.term_years * 12).toNat + 1200) + 1
    by omega]
  rw [amortSteps]
  by_cases hg : (1 : ℚ) / 10 ^ 8 < i.loan_amount ∧ 0 < (i.term_years * 12).toNat + 1200
  · rw [if_pos hg]
    constructor
    · intro hc
      exact absurd hc (by simp)
    · intro hc
      linarith [hg.1]
  · rw [if_neg hg]
    rcases not_and_or.mp hg with hsmall | hbig
    · simp only [true_iff]
      exact not_lt.mp hsmall
    · exact absurd (by omega) hbig

lemma foldr_max_sorted :
    ∀ (l : List ScheduleRow) (h : l ≠ []),
      l.Sorted (fun a b => a.month ≤ b.month) →
      (l.map fun row => row.month).foldr max 0 = (l.getLast h).month := by
  intro l
  induction l with
  | nil => intro h; exact absurd rfl h
  | cons a t ih =>
    intro h hs
    cases t with
    | nil =>
      show max a.month 0 = a.month
      exact Nat.max_eq_left (Nat.zero_le _)
    | cons b t2 =>
      obtain ⟨hrel, hs'⟩ := List.sorted_cons.mp hs
      have hne : (b :: t2) ≠ [] := by simp
      have hlast : (a :: b :: t2).getLast h = (b :: t2).getLast hne := by
        rw [List.getLast_cons hne]
      rw [hlast]
      show max a.month ((List.map (fun row => row.month) (b :: t2)).foldr max 0)
          = ((b :: t2).getLast hne).month
      rw [ih hne hs']
      exact Nat.max_eq_right (hrel _ (List.getLast_mem hne))

lemma monthly_payment_nonneg {p rate : ℚ} {t : ℤ} (hp : 0 ≤ p) (hrate : 0 ≤ rate) :
    0 ≤ monthly_payment p rate t := by
  simp only [monthly_payment]
  split_ifs with h1 h2
  · exact le_refl 0
  · push_neg at h1
    exact (div_pos h1.1 (by exact_mod_cast h1.2)).le
  · push_neg at h1
    have hr : 0 < rate / 100 / 12 := lt_of_le_of_ne (by positivity) (Ne.symm h2)
    have hnn : 0 < (t * 12).toNat := by omega
    have hq : (1 : ℚ) < (1 + rate / 100 / 12) ^ (t * 12).toNat :=
      one_lt_pow₀ (by linarith) hnn.ne'
    apply div_nonneg _ (by linarith)
    positivity

/-! ### Claim theorems -/

/-- C1 (counterexample): a validated input with positive loan amount 1e-9
(below the loop epsilon 1e-8) makes amortization_schedule return an empty
schedule, so no ScheduleRow is emitted at all and there is no last row whose
ending balance the claim could constrain. -/
theorem amortize_positive_loan_emits_no_row :
    validInputsP ⟨0, 1 / 10 ^ 9, 5, 30, 0, 0, 0⟩ ∧
    (0 : ℚ) < 1 / 10 ^ 9 ∧
    amortization_schedule ⟨0, 1 / 10 ^ 9, 5, 30, 0, 0, 0⟩ = Except.ok [] ∧
    (okD (amortization_schedule ⟨0, 1 / 10 ^ 9, 5, 30, 0, 0, 0⟩) []).getLast? = none :=
  ⟨by with_unfolding_all decide, by norm_num, by with_unfolding_all rfl,
    by with_unfolding_all rfl⟩

/-- C1 (amended): for every validated input whose loan amount exceeds the
loop epsilon 1e-8, amortization_schedule succeeds, emits at least one row,
finishes within term_months rows (exact arithmetic needs no extra months),
and the last row's ending balance is within 1e-4 of zero (in fact within
1e-8).  Inputs with loan amount in (0, 1e-8] instead yield the empty
schedule, the balance already being within tolerance. -/
theorem amortize_terminates_final_balance (i : MortgageInputs) (hv : validInputsP i)
    (hl : 1 / 10 ^ 8 < i.loan_amount) :
    ∃ rows, amortization_schedule i = Except.ok rows ∧ rows ≠ [] ∧
      rows.length ≤ (i.term_years * 12).toNat ∧
      ∀ last, rows.getLast? = some last → |last.ending_balance| ≤ 1 / 10 ^ 4 := by
  obtain ⟨hlen, hnil, hlast⟩ := schedule_rows_terminates i hv hl
  refine ⟨schedule_rows i, amortization_schedule_of_valid hv, ?_, hlen, ?_⟩
  · intro hc
    linarith [hnil hc]
  · intro last h
    obtain ⟨h0, h8⟩ := hlast last h
    rw [abs_of_nonneg h0]
    have : (1 : ℚ) / 10 ^ 8 ≤ 1 / 10 ^ 4 := by norm_num
    linarith

/-- C1 (witness): the amended theorem applied to a concrete validated
input (no property value, loan 100, zero rate, one year term, annual
overpayment 30). -/
theorem amortize_terminates_final_balance_witness :
    validInputsP ⟨0, 100, 0, 1, 0, 0, 30⟩ ∧ (1 : ℚ) / 10 ^ 8 < 100 ∧
    (∃ rows, amortization_schedule ⟨0, 100, 0, 1, 0, 0, 30⟩ = Except.ok rows ∧ rows ≠ [] ∧
      rows.length ≤ ((⟨0, 100, 0, 1, 0, 0, 30⟩ : MortgageInputs).term_years * 12).toNat ∧
      ∀ last, rows.getLast? = some last → |last.ending_balance| ≤ 1 / 10 ^ 4) :=
  ⟨by with_unfolding_all decide, by norm_num,
    amortize_terminates_final_balance ⟨0, 100, 0, 1, 0, 0, 30⟩
      (by with_unfolding_all decide) (by norm_num)⟩

/-- C2: in every row emitted by amortization_schedule, the overpayment is
nonzero only when the configured annual overpayment is positive, the month
is an exact multiple of 12 and the post-payment balance (ending balance
plus the overpayment) is positive; the applied overpayment then equals
min(annual_overpayment, post-payment balance), and the ending balance is
never negative. -/
theorem amortize_overpayment_rule (i : MortgageInputs) (rows : List ScheduleRow)
    (h : amortization_schedule i = Except.ok rows) :
    ∀ row ∈ rows,
      0 ≤ row.ending_balance ∧
      (row.overpayment ≠ 0 →
        0 < i.annual_overpayment ∧ row.month % 12 = 0 ∧
        0 < row.ending_balance + row.overpayment ∧
        row.overpayment = min i.annual_overpayment (row.ending_balance + row.overpayment)) := by
  obtain ⟨hv, hrw⟩ := amortization_schedule_ok h
  subst hrw
  have hrw2 : schedule_rows i = amortSteps (i.annual_rate_percent / 100 / 12)
      (monthly_payment i.loan_amount i.annual_rate_percent i.term_years)
      i.annual_overpayment ((i.term_years * 12).toNat)
      ((i.term_years * 12).toNat + 1201) 0 i.loan_amount 0 0 0 := rfl
  rw [hrw2]
  exact amortSteps_rows_overpay _ _ _ _ _ _ _ _ _ _

/-- C2 (witness): the theorem applied to a concrete validated input whose
12-row schedule is computed outright. -/
theorem amortize_overpayment_rule_witness :
    amortization_schedule ⟨0, 100, 0, 1, 0, 0, 30⟩
      = Except.ok (okD (amortization_schedule ⟨0, 100, 0, 1, 0, 0, 30⟩) []) ∧
    ∀ row ∈ okD (amortization_schedule ⟨0, 100, 0, 1, 0, 0, 30⟩) [],
      0 ≤ row.ending_balance ∧
      (row.overpayment ≠ 0 →
        0 < (⟨0, 100, 0, 1, 0, 0, 30⟩ : MortgageInputs).annual_overpayment ∧
        row.month % 12 = 0 ∧ 0 < row.ending_balance + row.overpayment ∧
        row.overpayment = min (⟨0, 100, 0, 1, 0, 0, 30⟩ : MortgageInputs).annual_overpayment
          (row.ending_balance + row.overpayment)) :=
  ⟨by with_unfolding_all rfl,
    amortize_overpayment_rule ⟨0, 100, 0, 1, 0, 0, 30⟩ _ (by with_unfolding_all rfl)⟩

/-- C4 (counterexample): a validated input with loan amount exactly 1e-8
(positive) yields an empty schedule, contradicting the claim that an empty
schedule occurs only for loan_amount ≤ 0. -/
theorem amortize_empty_schedule_positive_loan :
    validInputsP ⟨0, 1 / 10 ^ 8, 5, 30, 0, 0, 0⟩ ∧
    (0 : ℚ) < 1 / 10 ^ 8 ∧
    amortization_schedule ⟨0, 1 / 10 ^ 8, 5, 30, 0, 0, 0⟩ = Except.ok [] :=
  ⟨by with_unfolding_all decide, by norm_num, by with_unfolding_all rfl⟩

/-- C4 (amended): for every validated input, amortization_schedule succeeds
and the returned schedule is empty exactly when the loan amount is at most
the loop epsilon 1e-8 (not: at most 0); equivalently, whenever the loan
amount exceeds 1e-8 the schedule contains at least one row. -/
theorem amortize_empty_iff_loan_below_epsilon (i : MortgageInputs) (hv : validInputsP i) :
    ∃ rows, amortization_schedule i = Except.ok rows ∧
      (rows = [] ↔ i.loan_amount ≤ 1 / 10 ^ 8) :=
  ⟨schedule_rows i, amortization_schedule_of_valid hv, schedule_rows_nil_iff i⟩

/-- C4 (witness): the amended theorem applied to a concrete validated input
with loan amount 100 (a nonempty schedule). -/
theorem amortize_empty_iff_loan_below_epsilon_witness :
    validInputsP ⟨0, 100, 0, 1, 0, 0, 30⟩ ∧
    (∃ rows, amortization_schedule ⟨0, 100, 0, 1, 0, 0, 30⟩ = Except.ok rows ∧
      (rows = [] ↔ (⟨0, 100, 0, 1, 0, 0, 30⟩ : MortgageInputs).loan_amount ≤ 1 / 10 ^ 8)) :=
  ⟨by with_unfolding_all decide,
    amortize_empty_iff_loan_below_epsilon ⟨0, 100, 0, 1, 0, 0, 30⟩
      (by with_unfolding_all decide)⟩

/-- C5: at zero rate the monthly payment is exactly the principal divided by
term_years times 12 (in particular 120000 over 10 years gives 1000), and a
non-positive principal or non-positive term gives 0. -/
theorem monthly_payment_zero_rate_formula :
    (∀ (p : ℚ) (t : ℤ), 0 < p → 1 ≤ t → monthly_payment p 0 t = p / ((t : ℚ) * 12)) ∧
    monthly_payment 120000 0 10 = 1000 ∧
    (∀ (p rate : ℚ) (t : ℤ), p ≤ 0 ∨ t * 12 ≤ 0 → monthly_payment p rate t = 0) := by
  refine ⟨?_, by with_unfolding_all decide, ?_⟩
  · intro p t hp ht
    rw [monthly_payment_zero_rate hp ht]
    push_cast
    ring_nf
  · intro p rate t h
    simp only [monthly_payment]
    rw [if_pos h]

/-- C5 (witness): the zero-rate formula instantiated at the spec's example,
120000 at 0% over 10 years. -/
theorem monthly_payment_zero_rate_formula_witness :
    (0 : ℚ) < 120000 ∧ (1 : ℤ) ≤ 10 ∧
    monthly_payment 120000 0 10 = 120000 / ((10 : ℚ) * 12) ∧
    (120000 : ℚ) / ((10 : ℚ) * 12) = 1000 :=
  ⟨by norm_num, by norm_num,
    monthly_payment_zero_rate_formula.1 120000 10 (by norm_num) (by norm_num), by norm_num⟩

/-- C3 (counterexample): with the valid base inputs (loan 0, rate 5, one
year) and the scenario range 29.4..30 step 1 — accepted by
validate_scenario_range — scenario_analysis nevertheless fails: the grid
overshoots the high end to 30.4 (beyond 30), and the derived per-rate
validation raises only after the 29.4 simulation has already run. -/
theorem scenario_analysis_error_despite_valid_inputs :
    validInputsP ⟨0, 0, 5, 1, 0, 0, 0⟩ ∧ validRangeP ⟨147 / 5, 30, 1⟩ ∧
    isOkE (scenario_analysis ⟨0, 0, 5, 1, 0, 0, 0⟩ ⟨147 / 5, 30, 1⟩) = false :=
  ⟨by with_unfolding_all decide, by with_unfolding_all decide, by with_unfolding_all decide⟩

/-- C3 (amended): each public entry point fails exactly when its inputs are
invalid — where for the sweeps the conditions of the claim must be extended:
scenario_analysis (and build_heatmap_data with a nonempty level list) also
fails whenever some generated grid rate exceeds 30 (the rounded grid can
overshoot the validated high rate by up to half a step), and
build_heatmap_data also fails when some caller-supplied overpayment level
is negative; with an empty level list no per-cell validation runs at all. -/
theorem validation_error_iff :
    (∀ i, isOkE (amortization_schedule i) = true ↔ validInputsP i) ∧
    (∀ i, isOkE (serialize_inputs i) = true ↔ validInputsP i) ∧
    (∀ i rate op, isOkE (scenario_result i rate op) = true ↔
      validInputsP (derivedInputs i rate op)) ∧
    (∀ i s, isOkE (scenario_analysis i s) = true ↔
      validInputsP i ∧ validRangeP s ∧ ∀ v ∈ rate_grid (normRange s), v ≤ 30) ∧
    (∀ i s opts, isOkE (build_heatmap_data i s opts) = true ↔
      validInputsP i ∧ validRangeP s ∧
        (opts = [] ∨
          ((∀ v ∈ rate_grid (normRange s), v ≤ 30) ∧ ∀ o ∈ opts, 0 ≤ o))) :=
  ⟨amortization_schedule_isOk, serialize_inputs_isOk, scenario_result_isOk,
    scenario_analysis_isOk, build_heatmap_isOk⟩

/-- C3 (witness): the first conjunct of the amended theorem applied to a
concrete valid input. -/
theorem validation_error_iff_witness :
    isOkE (amortization_schedule ⟨0, 100, 0, 1, 0, 0, 30⟩) = true :=
  (validation_error_iff.1 ⟨0, 100, 0, 1, 0, 0, 30⟩).mpr (by with_unfolding_all decide)

/-- C6 (counterexample): with valid base inputs and the validated range
0..2.6 step 1, scenario_analysis returns four rows with rates 0, 1, 2, 3 —
the last grid point 3 exceeds the high end 2.6, so the produced grid is not
the progression "up to high inclusive" with exactly one row per such point. -/
theorem scenario_analysis_rate_beyond_high :
    validInputsP ⟨0, 0, 5, 1, 0, 0, 0⟩ ∧ validRangeP ⟨0, 13 / 5, 1⟩ ∧
    (okD (scenario_analysis ⟨0, 0, 5, 1, 0, 0, 0⟩ ⟨0, 13 / 5, 1⟩) []).map
        ScenarioRow.rate_percent = [0, 1, 2, 3] ∧
    ¬ ((3 : ℚ) ≤ 13 / 5) :=
  ⟨by with_unfolding_all decide, by with_unfolding_all decide,
    by with_unfolding_all decide, by norm_num⟩

/-- C6 (amended): for valid inputs and a validated range all of whose
generated grid rates are at most 30, scenario_analysis produces exactly one
row per grid point of np.arange(low, high + step/2, step) rounded to 4
decimal places — a grid that may include one point beyond high (by less
than half a step) — with the row rates being exactly that grid sorted
ascending; in particular low=3, high=4, step=0.5 yields rows with rates
3.0, 3.5, 4.0. -/
theorem scenario_analysis_one_row_per_grid_point (i : MortgageInputs) (s : ScenarioRange)
    (hv : validInputsP i) (hr : validRangeP s)
    (h30 : ∀ v ∈ rate_grid (normRange s), v ≤ 30) :
    ∃ rows, scenario_analysis i s = Except.ok rows ∧
      rows.map ScenarioRow.rate_percent = sortRats (rate_grid (normRange s)) ∧
      List.Perm (rows.map ScenarioRow.rate_percent) (rate_grid (normRange s)) ∧
      (rows.map ScenarioRow.rate_percent).Sorted (· ≤ ·) ∧
      rows.length = (rate_grid (normRange s)).length := by
  refine ⟨(sortRats (rate_grid (normRange s))).map (scenarioRowOf i),
    scenario_analysis_of_valid hv hr h30, ?_, ?_, ?_, ?_⟩
  · rw [List.map_map]
    exact congrFun (congrArg List.map (funext fun v => rfl)) _ |>.trans (List.map_id _)
  · rw [List.map_map]
    have h1 : (List.map (ScenarioRow.rate_percent ∘ scenarioRowOf i)
        (sortRats (rate_grid (normRange s)))) = sortRats (rate_grid (normRange s)) :=
      (congrFun (congrArg List.map (funext fun v => rfl)) _).trans (List.map_id _)
    rw [h1]
    exact sortRats_perm _
  · rw [List.map_map]
    have h1 : (List.map (ScenarioRow.rate_percent ∘ scenarioRowOf i)
        (sortRats (rate_grid (normRange s)))) = sortRats (rate_grid (normRange s)) :=
      (congrFun (congrArg List.map (funext fun v => rfl)) _).trans (List.map_id _)
    rw [h1]
    exact sortRats_sorted _
  · rw [List.length_map]
    exact (sortRats_perm _).length_eq

/-- C6 (witness): the amended theorem at the spec's example range 3..4 step
0.5, whose sorted grid is exactly 3.0, 3.5, 4.0. -/
theorem scenario_analysis_one_row_per_grid_point_witness :
    validInputsP ⟨0, 0, 5, 1, 0, 0, 0⟩ ∧ validRangeP ⟨3, 4, 1 / 2⟩ ∧
    sortRats (rate_grid (normRange ⟨3, 4, 1 / 2⟩)) = [3, 7 / 2, 4] ∧
    (∃ rows, scenario_analysis ⟨0, 0, 5, 1, 0, 0, 0⟩ ⟨3, 4, 1 / 2⟩ = Except.ok rows ∧
      rows.map ScenarioRow.rate_percent = sortRats (rate_grid (normRange ⟨3, 4, 1 / 2⟩)) ∧
      List.Perm (rows.map ScenarioRow.rate_percent) (rate_grid (normRange ⟨3, 4, 1 / 2⟩)) ∧
      (rows.map ScenarioRow.rate_percent).Sorted (· ≤ ·) ∧
      rows.length = (rate_grid (normRange ⟨3, 4, 1 / 2⟩)).length) :=
  ⟨by with_unfolding_all decide, by with_unfolding_all decide, by with_unfolding_all decide,
    scenario_analysis_one_row_per_grid_point ⟨0, 0, 5, 1, 0, 0, 0⟩ ⟨3, 4, 1 / 2⟩
      (by with_unfolding_all decide) (by with_unfolding_all decide)
      (by with_unfolding_all decide)⟩

lemma flatten_const_length {α β : Type} (l : List α) (f : α → List β) (c : ℕ)
    (h : ∀ a, (f a).length = c) : ((l.map f).flatten).length = l.length * c := by
  induction l with
  | nil => simp
  | cons a t ih =>
    simp only [List.map_cons, List.flatten_cons, List.length_append, List.length_cons, ih, h a]
    rw [Nat.succ_mul]
    omega

lemma map_flatten_map {α β γ : Type} (g : β → γ) (l : List α) (f : α → List β) :
    ((l.map f).flatten).map g = (l.map fun a => (f a).map g).flatten := by
  induction l with
  | nil => rfl
  | cons a t ih =>
    simp only [List.map_cons, List.flatten_cons, List.map_append, ih]

/-- C7 (counterexample): with valid inputs and the validated range 3..4
step 0.5 (a three-point grid) and the single caller-supplied overpayment
level -1, build_heatmap_data raises a validation error on the first cell
instead of returning the 3 × 1 rows the claim promises. -/
theorem build_heatmap_error_on_negative_level :
    validInputsP ⟨0, 0, 5, 1, 0, 0, 0⟩ ∧ validRangeP ⟨3, 4, 1 / 2⟩ ∧
    (rate_grid (normRange ⟨3, 4, 1 / 2⟩)).length = 3 ∧
    isOkE (build_heatmap_data ⟨0, 0, 5, 1, 0, 0, 0⟩ ⟨3, 4, 1 / 2⟩ [-1]) = false :=
  ⟨by with_unfolding_all decide, by with_unfolding_all decide,
    by with_unfolding_all decide, by with_unfolding_all decide⟩

/-- C7 (amended): for valid inputs, a validated range all of whose grid
rates are at most 30, and non-negative caller-supplied overpayment levels,
build_heatmap_data returns exactly (number of grid rates) × (number of
levels) rows, rates outer and levels inner in caller order, and every row's
overpayment value is one of the supplied levels.  A negative level or a
grid rate above 30 instead raises a validation error mid-sweep. -/
theorem build_heatmap_rows_cross_product (i : MortgageInputs) (s : ScenarioRange)
    (opts : List ℚ) (hv : validInputsP i) (hr : validRangeP s)
    (h30 : ∀ v ∈ rate_grid (normRange s), v ≤ 30) (hop : ∀ o ∈ opts, 0 ≤ o) :
    ∃ rows, build_heatmap_data i s opts = Except.ok rows ∧
      rows.length = (rate_grid (normRange s)).length * opts.length ∧
      rows.map HeatmapCell.annual_overpayment
        = ((rate_grid (normRange s)).map fun _ => opts).flatten ∧
      rows.map HeatmapCell.rate_percent
        = ((rate_grid (normRange s)).map fun v => opts.map fun _ => v).flatten ∧
      ∀ row ∈ rows, row.annual_overpayment ∈ opts := by
  refine ⟨((rate_grid (normRange s)).map fun rate => opts.map (heatmapCellOf i rate)).flatten,
    build_heatmap_of_valid hv hr h30 hop, ?_, ?_, ?_, ?_⟩
  · exact flatten_const_length _ _ _ fun a => List.length_map _ _
  · rw [map_flatten_map]
    congr 1
    apply List.map_congr_left
    intro v _
    rw [List.map_map]
    exact (congrFun (congrArg List.map (funext fun o => rfl)) _).trans (List.map_id _)
  · rw [map_flatten_map]
    congr 1
    apply List.map_congr_left
    intro v _
    rw [List.map_map]
    rfl
  · intro row hrow
    rw [List.mem_flatten] at hrow
    obtain ⟨sub, hsub, hrowsub⟩ := hrow
    rw [List.mem_map] at hsub
    obtain ⟨v, hvmem, rfl⟩ := hsub
    rw [List.mem_map] at hrowsub
    obtain ⟨o, ho, rfl⟩ := hrowsub
    exact ho

/-- C7 (witness): the amended theorem at the spec's example — the
three-point grid 3.0, 3.5, 4.0 crossed with the two levels 0 and 6000,
giving exactly 6 rows. -/
theorem build_heatmap_rows_cross_product_witness :
    validInputsP ⟨0, 0, 5, 1, 0, 0, 0⟩ ∧ validRangeP ⟨3, 4, 1 / 2⟩ ∧
    (rate_grid (normRange ⟨3, 4, 1 / 2⟩)).length * ([0, 6000] : List ℚ).length = 6 ∧
    (∃ rows, build_heatmap_data ⟨0, 0, 5, 1, 0, 0, 0⟩ ⟨3, 4, 1 / 2⟩ [0, 6000]
        = Except.ok rows ∧
      rows.length = (rate_grid (normRange ⟨3, 4, 1 / 2⟩)).length * ([0, 6000] : List ℚ).length ∧
      rows.map HeatmapCell.annual_overpayment
        = ((rate_grid (normRange ⟨3, 4, 1 / 2⟩)).map fun _ => ([0, 6000] : List ℚ)).flatten ∧
      rows.map HeatmapCell.rate_percent
        = ((rate_grid (normRange ⟨3, 4, 1 / 2⟩)).map
            fun v => ([0, 6000] : List ℚ).map fun _ => v).flatten ∧
      ∀ row ∈ rows, row.annual_overpayment ∈ ([0, 6000] : List ℚ)) :=
  ⟨by with_unfolding_all decide, by with_unfolding_all decide, by with_unfolding_all decide,
    build_heatmap_rows_cross_product ⟨0, 0, 5, 1, 0, 0, 0⟩ ⟨3, 4, 1 / 2⟩ [0, 6000]
      (by with_unfolding_all decide) (by with_unfolding_all decide)
      (by with_unfolding_all decide) (by with_unfolding_all decide)⟩

/-- C8: summarize_schedule returns the all-zero summary on an empty
schedule; on a nonempty schedule (whose month column is nondecreasing, as
every simulator-produced schedule is), months is the last row's month,
years is months divided by 12, paid-to-lender is the payment column sum
plus the overpayment column sum, and the all-in cost adds the annual fixed
costs times years. -/
theorem summarize_schedule_totals :
    (∀ costs : ℚ, summarize_schedule [] costs =
      { months := 0, years := 0, total_interest := 0, total_paid_to_bank := 0,
        total_overpayment := 0, all_in_housing_cost := 0 }) ∧
    (∀ (schedule : List ScheduleRow) (costs : ℚ) (h : schedule ≠ []),
      schedule.Sorted (fun a b => a.month ≤ b.month) →
      (summarize_schedule schedule costs).months = ((schedule.getLast h).month : ℚ) ∧
      (summarize_schedule schedule costs).years
        = (summarize_schedule schedule costs).months / 12 ∧
      (summarize_schedule schedule costs).total_interest
        = (schedule.map fun row => row.interest).sum ∧
      (summarize_schedule schedule costs).total_paid_to_bank
        = (schedule.map fun row => row.payment).sum
          + (schedule.map fun row => row.overpayment).sum ∧
      (summarize_schedule schedule costs).all_in_housing_cost
        = (summarize_schedule schedule costs).total_paid_to_bank
          + costs * (summarize_schedule schedule costs).years) := by
  constructor
  · intro costs
    rfl
  · intro schedule costs h hs
    have hne : schedule.isEmpty = false := by
      cases schedule with
      | nil => exact absurd rfl h
      | cons a t => rfl
    unfold summarize_schedule
    rw [hne]
    simp only [Bool.false_eq_true, if_false]
    refine ⟨?_, ?_, ?_, ?_, ?_⟩ <;> try trivial
    show (((schedule.map fun row => row.month).foldr max 0 : ℕ) : ℚ) = _
    rw [foldr_max_sorted schedule h hs]

/-- C8 (witness): the theorem applied to a concrete two-row schedule. -/
theorem summarize_schedule_totals_witness :
    ([⟨1, 1, 100, 10, 1, 9, 0, 91, 1, 9, 0⟩, ⟨2, 1, 91, 10, 1, 9, 0, 82, 2, 18, 0⟩]
        : List ScheduleRow) ≠ [] ∧
    ([⟨1, 1, 100, 10, 1, 9, 0, 91, 1, 9, 0⟩, ⟨2, 1, 91, 10, 1, 9, 0, 82, 2, 18, 0⟩]
        : List ScheduleRow).Sorted (fun a b => a.month ≤ b.month) ∧
    (summarize_schedule [] 100 =
      { months := 0, years := 0, total_interest := 0, total_paid_to_bank := 0,
        total_overpayment := 0, all_in_housing_cost := 0 }) ∧
    (summarize_schedule
        [⟨1, 1, 100, 10, 1, 9, 0, 91, 1, 9, 0⟩, ⟨2, 1, 91, 10, 1, 9, 0, 82, 2, 18, 0⟩]
        100).months
      = ((([⟨1, 1, 100, 10, 1, 9, 0, 91, 1, 9, 0⟩, ⟨2, 1, 91, 10, 1, 9, 0, 82, 2, 18, 0⟩]
        : List ScheduleRow).getLast (by simp)).month : ℚ) := by
  refine ⟨by simp, by with_unfolding_all decide, summarize_schedule_totals.1 100, ?_⟩
  exact (summarize_schedule_totals.2
    [⟨1, 1, 100, 10, 1, 9, 0, 91, 1, 9, 0⟩, ⟨2, 1, 91, 10, 1, 9, 0, 82, 2, 18, 0⟩]
    100 (by simp) (by with_unfolding_all decide)).1

/-- C9 (counterexample): low 0, high 50, step 1 are all finite and
non-negative with a positive step, yet validate_scenario_range raises (the
high rate exceeds the 30% cap) instead of returning a normalized range. -/
theorem validate_scenario_range_rejects_nonneg_input :
    (0 : ℚ) ≤ 0 ∧ (0 : ℚ) ≤ 50 ∧ (0 : ℚ) < 1 ∧
    isOkE (validate_scenario_range ⟨0, 50, 1⟩) = false :=
  ⟨le_refl 0, by norm_num, by norm_num, by with_unfolding_all decide⟩

/-- C9 (amended): for finite non-negative low and high and positive step
such that additionally max(low, high) is at most 30 and the grid size
(max − min)/step is at most 300, validate_scenario_range returns the range
with low and high swapped into order and the same step; in particular
(low 7, high 3, step 0.5) normalizes to low 3, high 7. -/
theorem validate_scenario_range_normalizes (low high step : ℚ)
    (h1 : 0 ≤ low) (h2 : 0 ≤ high) (h3 : 0 < step) (h4 : max low high ≤ 30)
    (h5 : (max low high - min low high) / step ≤ 300) :
    validate_scenario_range ⟨low, high, step⟩
      = Except.ok ⟨min low high, max low high, step⟩ :=
  validate_range_of_valid ⟨h1, h2, h3, h4, h5⟩

/-- C9 (witness): the amended theorem at the spec's example (7, 3, 0.5),
which normalizes to low 3, high 7. -/
theorem validate_scenario_range_normalizes_witness :
    validate_scenario_range ⟨7, 3, 1 / 2⟩ = Except.ok ⟨min 7 3, max 7 3, 1 / 2⟩ ∧
    (min (7 : ℚ) 3 = 3 ∧ max (7 : ℚ) 3 = 7) :=
  ⟨validate_scenario_range_normalizes 7 3 (1 / 2) (by norm_num) (by norm_num) (by norm_num)
      (by with_unfolding_all decide) (by with_unfolding_all decide),
    by with_unfolding_all decide, by with_unfolding_all decide⟩

/-- C10: every schedule returned by amortization_schedule is a chained
balance trace: row k (0-based) has month k+1, the first row starts at the
loan amount, each row's starting balance is the previous row's ending
balance, and within every row the ending balance is between 0 and the
starting balance, so ending balances are non-increasing along the schedule. -/
theorem amortize_schedule_chained_trace (i : MortgageInputs) (rows : List ScheduleRow)
    (h : amortization_schedule i = Except.ok rows) :
    (∀ k, ∀ hk : k < rows.length, (rows.get ⟨k, hk⟩).month = k + 1) ∧
    (∀ first, rows.head? = some first →
      first.month = 1 ∧ first.starting_balance = i.loan_amount) ∧
    (∀ row ∈ rows, 0 ≤ row.ending_balance ∧ row.ending_balance ≤ row.starting_balance) ∧
    rows.Chain' (fun a b => b.starting_balance = a.ending_balance ∧ b.month = a.month + 1 ∧
      b.ending_balance ≤ a.ending_balance) := by
  obtain ⟨hv, hrw⟩ := amortization_schedule_ok h
  subst hrw
  have hM : 0 ≤ monthly_payment i.loan_amount i.annual_rate_percent i.term_years :=
    monthly_payment_nonneg hv.2.1 hv.2.2.1
  have hrw2 : schedule_rows i = amortSteps (i.annual_rate_percent / 100 / 12)
      (monthly_payment i.loan_amount i.annual_rate_percent i.term_years)
      i.annual_overpayment ((i.term_years * 12).toNat)
      ((i.term_years * 12).toNat + 1201) 0 i.loan_amount 0 0 0 := rfl
  rw [hrw2]
  obtain ⟨hmem, hhead, hidx, hchain⟩ :=
    amortSteps_rows_chain (i.annual_rate_percent / 100 / 12)
      (monthly_payment i.loan_amount i.annual_rate_percent i.term_years)
      i.annual_overpayment ((i.term_years * 12).toNat) hM
      ((i.term_years * 12).toNat + 1201) 0 i.loan_amount 0 0 0 hv.2.1
  refine ⟨?_, ?_, hmem, hchain⟩
  · intro k hk
    rw [hidx k hk]
    omega
  · intro first hfirst
    obtain ⟨hm, hs⟩ := hhead first hfirst
    exact ⟨by omega, hs⟩

/-- C10 (witness): the theorem applied to a concrete validated input whose
12-row schedule is computed outright. -/
theorem amortize_schedule_chained_trace_witness :
    amortization_schedule ⟨0, 100, 0, 1, 0, 0, 30⟩
      = Except.ok (okD (amortization_schedule ⟨0, 100, 0, 1, 0, 0, 30⟩) []) ∧
    ((∀ k, ∀ hk : k < (okD (amortization_schedule ⟨0, 100, 0, 1, 0, 0, 30⟩) []).length,
        ((okD (amortization_schedule ⟨0, 100, 0, 1, 0, 0, 30⟩) []).get ⟨k, hk⟩).month = k + 1) ∧
      (∀ first, (okD (amortization_schedule ⟨0, 100, 0, 1, 0, 0, 30⟩) []).head? = some first →
        first.month = 1 ∧
        first.starting_balance = (⟨0, 100, 0, 1, 0, 0, 30⟩ : MortgageInputs).loan_amount) ∧
      (∀ row ∈ okD (amortization_schedule ⟨0, 100, 0, 1, 0, 0, 30⟩) [],
        0 ≤ row.ending_balance ∧ row.ending_balance ≤ row.starting_balance) ∧
      (okD (amortization_schedule ⟨0, 100, 0, 1, 0, 0, 30⟩) []).Chain'
        (fun a b => b.starting_balance = a.ending_balance ∧ b.month = a.month + 1 ∧
          b.ending_balance ≤ a.ending_balance)) :=
  ⟨by with_unfolding_all rfl,
    amortize_schedule_chained_trace ⟨0, 100, 0, 1, 0, 0, 30⟩ _ (by with_unfolding_all rfl)⟩
